import Mathlib

/-!
# Zee-AI streaming chat relay: shallow embedding and verified properties

The development embeds the Go sources

* `internal/ollama/client.go` (`Client.ChatStream`, `Client.Chat`, `Client.GenerateTitle`),
* `internal/db/database.go` (`DB.CreateConversation`, `DB.CreateMessage`, `DB.GetMessages`,
  `DB.TouchConversation`, `DB.UpdateConversationTitle`),
* `internal/api/handlers.go` (`Handler.ChatStream` and the title goroutine it starts),
* `internal/config/config.go` (`Config.CORSOrigins`, `getEnv`) and `internal/api/router.go`
  (`corsHandler`)

as pure functions with explicit state passing.  Everything the handler obtains from its
surroundings (fresh uuids, clock readings, storage faults, the upstream HTTP reply, the
outcome of client writes, the JSON decoder) is supplied by an environment record.
-/

namespace ZeeAI

/-! ## Go base types -/

/-- A Go `string`: an immutable sequence of bytes. -/
abbrev GoString := List (Fin 256)

/-- Bytes of an ASCII string literal of the source. -/
def ascii (s : String) : GoString := s.toList.map (fun c => Fin.ofNat c.toNat)

/-- Reduction of an integer into the range of Go's `int` on a 64-bit platform. -/
def wrapInt64 (x : Int) : Int := (x + 2 ^ 63) % 2 ^ 64 - 2 ^ 63

/-- Go's `+` on two `int` operands (wraps around on overflow). -/
def addInt (a b : Int) : Int := wrapInt64 (a + b)

/-- A floating point literal of the source, `mantissa * 10 ^ exponent`. -/
structure FloatLit where
  mantissa : Int
  exponent : Int
deriving DecidableEq, Repr

/-- The `float64` value `float64(nanos) / 1e9`, kept symbolically by its numerator.
The zero value of a `float64` variable is `float64(0) / 1e9`. -/
structure Seconds where
  nanos : Int
deriving DecidableEq, Repr

/-! ## `internal/ollama`: wire types -/

/-- Go `ollama.ChatMessage`. -/
structure ChatMessage where
  role : GoString
  content : GoString
deriving DecidableEq, Repr

/-- Go `ollama.Options`. -/
structure Options where
  temperature : FloatLit
  topP : FloatLit
  topK : Int
  numPredict : Int
  seed : Int
deriving DecidableEq, Repr

/-- Go `ollama.ChatRequest`. -/
structure ChatRequest where
  model : GoString
  messages : List ChatMessage
  stream : Bool
  options : Option Options
deriving DecidableEq, Repr

/-- Go `ollama.ChatResponse` (the fields read by the embedded code). -/
structure ChatResponse where
  model : GoString
  message : ChatMessage
  done : Bool
  totalDuration : Int
  promptEvalCount : Int
  evalCount : Int
deriving DecidableEq, Repr

/-- Errors returned by the inference client, by origin. -/
inductive ClientError where
  /-- Failure of `json.Marshal`, `http.NewRequest` or `httpClient.Do`. -/
  | transport (msg : GoString)
  /-- The error `chat error: status %d: %s`. -/
  | status (code : Nat) (body : GoString)
  /-- A non-nil `scanner.Err()`. -/
  | scan (msg : GoString)
  /-- The error `decode: %w` of the non-streaming call. -/
  | decode (msg : GoString)
  /-- An error returned by the chunk callback. -/
  | callback (msg : GoString)
deriving DecidableEq, Repr

/-- One successful `scanner.Scan()`: the line made available by `scanner.Bytes()` and the
value `scanner.Err()` would report if it were called right after this scan. -/
structure ScanToken where
  line : GoString
  errAfter : Option GoString
deriving DecidableEq, Repr

/-- What the upstream service answers to the streaming request. -/
inductive StreamReply where
  /-- No response arrived: `json.Marshal`, `http.NewRequest` or `httpClient.Do` failed. -/
  | failed (msg : GoString)
  /-- A response arrived: its status code, its body as `io.ReadAll` would return it, the
  lines a `bufio.Scanner` yields from it, and `scanner.Err()` once `Scan` returns false. -/
  | response (status : Nat) (body : GoString) (tokens : List ScanToken)
      (finalErr : Option GoString)
deriving DecidableEq, Repr

/-- What the upstream service answers to the non-streaming request. -/
inductive ChatReply where
  /-- The call `httpClient.Post` failed. -/
  | failed (msg : GoString)
  /-- A response arrived with this status code and body. -/
  | response (status : Nat) (body : GoString)
deriving DecidableEq, Repr

/-! ## `internal/ollama`: `Client.ChatStream`, `Client.Chat`, `Client.GenerateTitle` -/

/-- The scanning loop of `Client.ChatStream` (client.go lines 145-165).  The callback is a
state transformer that may report an error. -/
def Client.scanLoop {σ : Type} (unmarshal : GoString → Option ChatResponse)
    (onChunk : σ → ChatResponse → σ × Option GoString) :
    List ScanToken → Option GoString → σ → σ × Option ClientError
  | [], finalErr, s => (s, finalErr.map ClientError.scan)
  | t :: rest, finalErr, s =>
    if t.line.length = 0 then
      Client.scanLoop unmarshal onChunk rest finalErr s
    else
      match unmarshal t.line with
      | none => Client.scanLoop unmarshal onChunk rest finalErr s
      | some chatResp =>
        match onChunk s chatResp with
        | (s', some err) => (s', some (ClientError.callback err))
        | (s', none) =>
          if chatResp.done then (s', t.errAfter.map ClientError.scan)
          else Client.scanLoop unmarshal onChunk rest finalErr s'

/-- Go `Client.ChatStream` (client.go lines 117-166). -/
def Client.ChatStream {σ : Type} (upstream : ChatRequest → StreamReply)
    (unmarshal : GoString → Option ChatResponse) (req : ChatRequest)
    (onChunk : σ → ChatResponse → σ × Option GoString) (s : σ) : σ × Option ClientError :=
  match upstream { req with stream := true } with
  | StreamReply.failed msg => (s, some (ClientError.transport msg))
  | StreamReply.response status body tokens finalErr =>
    if status ≠ 200 then (s, some (ClientError.status status body))
    else Client.scanLoop unmarshal onChunk tokens finalErr s

/-- Go `Client.Chat` (client.go lines 168-193). -/
def Client.Chat (upstream : ChatRequest → ChatReply)
    (decodeBody : GoString → Except GoString ChatResponse) (req : ChatRequest) :
    Except ClientError ChatResponse :=
  match upstream { req with stream := false } with
  | ChatReply.failed msg => Except.error (ClientError.transport msg)
  | ChatReply.response status body =>
    if status ≠ 200 then Except.error (ClientError.status status body)
    else
      match decodeBody body with
      | Except.error msg => Except.error (ClientError.decode msg)
      | Except.ok chatResp => Except.ok chatResp

/-- The system instruction of `Client.GenerateTitle`. -/
def titlePrompt : GoString :=
  ascii ("Generate a very short title (max 6 words) for a conversation that starts with " ++
    "the following message. Reply with ONLY the title, no quotes, no punctuation at the end.")

/-- The request built by `Client.GenerateTitle` (client.go lines 260-277). -/
def titleRequest (model userMessage : GoString) : ChatRequest :=
  { model := model
    messages := [{ role := ascii "system", content := titlePrompt },
                 { role := ascii "user", content := userMessage }]
    stream := false
    options := some { temperature := ⟨3, -1⟩, topP := ⟨0, 0⟩, topK := 0,
                      numPredict := 20, seed := 0 } }

/-- Go `Client.GenerateTitle` (client.go lines 259-289). -/
def Client.GenerateTitle (upstream : ChatRequest → ChatReply)
    (decodeBody : GoString → Except GoString ChatResponse) (model userMessage : GoString) :
    Except ClientError GoString :=
  match Client.Chat upstream decodeBody (titleRequest model userMessage) with
  | Except.error err => Except.error err
  | Except.ok resp =>
    let title := resp.message.content
    if title.length > 80 then Except.ok (title.take 80) else Except.ok title

/-! ## `internal/db`: the storage gateway -/

/-- Go `db.Conversation`; timestamps are clock readings. -/
structure Conversation where
  id : GoString
  title : GoString
  model : GoString
  createdAt : Nat
  updatedAt : Nat
deriving DecidableEq, Repr

/-- Go `db.Message`. -/
structure Message where
  id : GoString
  conversationID : GoString
  role : GoString
  content : GoString
  model : GoString
  tokensUsed : Int
  duration : Seconds
  createdAt : Nat
deriving DecidableEq, Repr

/-- The two tables of the database, rows in insertion order. -/
structure DB where
  conversations : List Conversation
  messages : List Message
deriving DecidableEq, Repr

/-- The `CHECK(role IN ('user', 'assistant', 'system'))` constraint of the schema. -/
def roleAllowed (role : GoString) : Bool :=
  role == ascii "user" || role == ascii "assistant" || role == ascii "system"

/-- Go `DB.CreateConversation` (database.go lines 82-92).  The statement fails when the
connection reports a fault or the primary key is already present; a failed statement leaves
the tables unchanged.  The flag returned is `err == nil`. -/
def DB.CreateConversation (d : DB) (fault : Bool) (now : Nat) (id title model : GoString) :
    DB × Bool :=
  if fault || d.conversations.any (fun c => c.id == id) then (d, false)
  else
    ({ d with conversations := d.conversations ++
        [{ id := id, title := title, model := model, createdAt := now, updatedAt := now }] },
     true)

/-- Go `DB.UpdateConversationTitle` (database.go lines 122-125). -/
def DB.UpdateConversationTitle (d : DB) (fault : Bool) (now : Nat) (id title : GoString) :
    DB × Bool :=
  if fault then (d, false)
  else
    ({ d with conversations := d.conversations.map (fun c =>
        if c.id == id then { c with title := title, updatedAt := now } else c) }, true)

/-- Go `DB.TouchConversation` (database.go lines 132-135). -/
def DB.TouchConversation (d : DB) (fault : Bool) (now : Nat) (id : GoString) : DB × Bool :=
  if fault then (d, false)
  else
    ({ d with conversations := d.conversations.map (fun c =>
        if c.id == id then { c with updatedAt := now } else c) }, true)

/-- Go `DB.CreateMessage` (database.go lines 137-143).  The insert fails on a connection
fault, on a duplicate primary key and on a role outside the schema's `CHECK`; the foreign
key is not enforced because the connection never enables `foreign_keys`. -/
def DB.CreateMessage (d : DB) (fault : Bool) (msg : Message) : DB × Bool :=
  if fault || d.messages.any (fun m => m.id == msg.id) || !roleAllowed msg.role then (d, false)
  else ({ d with messages := d.messages ++ [msg] }, true)

/-- Byte-wise comparison of two stored values, the order of SQLite's default collation on
text: the first differing byte decides, and a proper beginning of a value comes first. -/
def bytesLE : GoString → GoString → Bool
  | [], _ => true
  | _ :: _, [] => false
  | a :: as, b :: bs => if a < b then true else if b < a then false else bytesLE as bs

/-- Go `DB.GetMessages` (database.go lines 145-164).

* `fault`: `conn.Query` or `rows.Scan` returns an error, and the function returns
  `(nil, err)`; `none` is that error return.
* `rows`: `some n` when `rows.Next()` stops after `n` rows because of an error; the function
  never calls `rows.Err()`, so it returns those `n` rows with a nil error.
* `stored`: the value the driver stores in the column `created_at` for a bound `time.Time`,
  given as a function of the instant.  `ORDER BY created_at ASC` compares these stored
  values, not the instants; rows with equal stored values are kept in insertion order. -/
def DB.GetMessages (d : DB) (fault : Bool) (rows : Option Nat) (stored : Nat → GoString)
    (conversationID : GoString) : Option (List Message) :=
  if fault then none
  else
    let sorted := (d.messages.filter (fun m => m.conversationID == conversationID)).insertionSort
      (fun a b => bytesLE (stored a.createdAt) (stored b.createdAt) = true)
    match rows with
    | none => some sorted
    | some n => some (sorted.take n)

/-- A call made to the storage gateway, with `ok` recording `err == nil`. -/
inductive DbCall where
  | createConversation (id title model : GoString) (ok : Bool)
  | createMessage (msg : Message) (ok : Bool)
  | getMessages (conversationID : GoString) (ok : Bool)
  | touchConversation (id : GoString) (ok : Bool)
  | updateConversationTitle (id title : GoString) (ok : Bool)
deriving DecidableEq, Repr

/-! ## `internal/api`: the outbound event channel -/

/-- Payload of a `chunk` event: the map built at handlers.go lines 270-282.  The three
optional keys are absent (`none`) unless the handler adds them. -/
structure ChunkEvent where
  content : GoString
  done : Bool
  totalTokens : Option Int
  evalCount : Option Int
  duration : Option Seconds
deriving DecidableEq, Repr

/-- A server-sent event written by the relay. -/
inductive Event where
  | init (conversationID : GoString)
  | chunk (c : ChunkEvent)
  | error (err : ClientError)
deriving DecidableEq, Repr

/-- One `fmt.Fprintf(w, ...)` followed by `flusher.Flush()`: the event written and whether
the write reached the client. -/
structure Written where
  event : Event
  delivered : Bool
deriving DecidableEq, Repr

/-- The response writer as seen by the relay: everything written so far, in order. -/
abbrev Writer := List Written

/-- Go `api.ChatAPIRequest`. -/
structure ChatAPIRequest where
  conversationID : GoString
  model : GoString
  message : GoString
  options : Option Options
deriving DecidableEq, Repr

/-- Everything `Handler.ChatStream` obtains from its surroundings during one turn. -/
structure Env where
  /-- Results of the three `uuid.New().String()` calls. -/
  convID : GoString
  userMsgID : GoString
  asstMsgID : GoString
  /-- Results of the `time.Now()` calls. -/
  nowConv : Nat
  nowUser : Nat
  nowAsst : Nat
  nowTouch : Nat
  /-- Connection faults of the five storage calls. -/
  failCreateConversation : Bool
  failSaveUser : Bool
  failLoadHistory : Bool
  failSaveAssistant : Bool
  failTouch : Bool
  /-- The number of rows after which the iteration over the history stops on an error that
  `GetMessages` never inspects; `none` when the iteration reaches the last row. -/
  historyRows : Option Nat
  /-- The value the database driver stores for a `time.Time`, by instant. -/
  storedTime : Nat → GoString
  /-- Whether the response writer is an `http.Flusher`. -/
  flusher : Bool
  /-- Whether the write with the given index (0 for the first event) fails. -/
  writeFails : Nat → Bool
  /-- The upstream inference service. -/
  upstream : ChatRequest → StreamReply
  /-- The decoder `json.Unmarshal` into a fresh `ChatResponse`; `none` is a decode error. -/
  unmarshal : GoString → Option ChatResponse

/-- The call `fmt.Fprintf(w, "data: %s\n\n", data)`: appends the event and reports whether
the write failed. -/
def fprintf (env : Env) (w : Writer) (e : Event) : Writer × Bool :=
  let failed := env.writeFails w.length
  (w ++ [{ event := e, delivered := !failed }], failed)

/-- The variables captured by the chunk callback. -/
structure TurnState where
  writer : Writer
  fullResponse : GoString
  totalTokens : Int
  totalDuration : Seconds
deriving DecidableEq, Repr

/-- The callback handed to `Client.ChatStream` (handlers.go lines 269-290). -/
def onChunk (env : Env) (st : TurnState) (resp : ChatResponse) : TurnState × Option GoString :=
  let chunk : ChunkEvent :=
    { content := resp.message.content, done := resp.done,
      totalTokens := none, evalCount := none, duration := none }
  let totalTokens := if resp.done then addInt resp.evalCount resp.promptEvalCount
    else st.totalTokens
  let totalDuration := if resp.done then Seconds.mk resp.totalDuration else st.totalDuration
  let chunk := if resp.done then
      { chunk with totalTokens := some totalTokens, evalCount := some resp.evalCount,
                   duration := some totalDuration }
    else chunk
  let fullResponse := st.fullResponse ++ resp.message.content
  let written := fprintf env st.writer (Event.chunk chunk)
  ({ writer := written.1, fullResponse := fullResponse, totalTokens := totalTokens,
     totalDuration := totalDuration }, none)

/-- The arguments captured by the title goroutine. -/
structure TitleJob where
  model : GoString
  message : GoString
  conversationID : GoString
deriving DecidableEq, Repr

/-- Observable result of one run of `Handler.ChatStream`. -/
structure Outcome where
  /-- The database after the handler returned. -/
  db : DB
  /-- The `writeError` reply (status code and message), if one was written. -/
  reply : Option (Nat × String)
  /-- The events written to the push channel. -/
  writer : Writer
  /-- The calls to `Client.ChatStream` with the error each returned. -/
  chatCalls : List (ChatRequest × Option ClientError)
  /-- The calls to the storage gateway, in order. -/
  dbCalls : List DbCall
  /-- The title goroutine started by the handler, if any. -/
  titleJob : Option TitleJob
deriving DecidableEq, Repr

/-- The streaming part of `Handler.ChatStream` (handlers.go lines 241-329), entered with the
database, the storage calls made so far, the resolved conversation id and the history. -/
def Handler.stream (env : Env) (db : DB) (calls : List DbCall) (req : ChatAPIRequest)
    (conversationID : GoString) (history : List Message) : Outcome :=
  let chatMessages : List ChatMessage :=
    history.map (fun m => { role := m.role, content := m.content })
  if !env.flusher then
    { db := db, reply := some (500, "Streaming not supported"), writer := [],
      chatCalls := [], dbCalls := calls, titleJob := none }
  else
    let w0 := (fprintf env [] (Event.init conversationID)).1
    let chatReq : ChatRequest :=
      { model := req.model, messages := chatMessages, stream := false, options := req.options }
    let st0 : TurnState :=
      { writer := w0, fullResponse := [], totalTokens := 0, totalDuration := ⟨0⟩ }
    match Client.ChatStream env.upstream env.unmarshal chatReq (onChunk env) st0 with
    | (st, some err) =>
      { db := db, reply := none, writer := (fprintf env st.writer (Event.error err)).1,
        chatCalls := [(chatReq, some err)], dbCalls := calls, titleJob := none }
    | (st, none) =>
      let assistantMsg : Message :=
        { id := env.asstMsgID, conversationID := conversationID, role := ascii "assistant",
          content := st.fullResponse, model := req.model, tokensUsed := st.totalTokens,
          duration := st.totalDuration, createdAt := env.nowAsst }
      let r1 := db.CreateMessage env.failSaveAssistant assistantMsg
      let r2 := r1.1.TouchConversation env.failTouch env.nowTouch conversationID
      { db := r2.1, reply := none, writer := st.writer,
        chatCalls := [(chatReq, none)],
        dbCalls := calls ++ [DbCall.createMessage assistantMsg r1.2,
                             DbCall.touchConversation conversationID r2.2],
        titleJob := if history.length ≤ 1 then
            some { model := req.model, message := req.message,
                   conversationID := conversationID }
          else none }

/-- The part of `Handler.ChatStream` that persists the inbound message and loads the
history (handlers.go lines 219-239), followed by the streaming part. -/
def Handler.turn (env : Env) (db : DB) (calls : List DbCall) (req : ChatAPIRequest)
    (conversationID : GoString) : Outcome :=
  let userMsg : Message :=
    { id := env.userMsgID, conversationID := conversationID, role := ascii "user",
      content := req.message, model := [], tokensUsed := 0, duration := ⟨0⟩,
      createdAt := env.nowUser }
  let r := db.CreateMessage env.failSaveUser userMsg
  if !r.2 then
    { db := r.1, reply := some (500, "Failed to save message"), writer := [],
      chatCalls := [], dbCalls := calls ++ [DbCall.createMessage userMsg false],
      titleJob := none }
  else
    let loaded := r.1.GetMessages env.failLoadHistory env.historyRows env.storedTime
      conversationID
    let history := loaded.getD []
    Handler.stream env r.1
      (calls ++ [DbCall.createMessage userMsg true,
                 DbCall.getMessages conversationID loaded.isSome])
      req conversationID history

/-- Go `Handler.ChatStream` (handlers.go lines 197-329).  The argument `body` is the result
of decoding the request body, `none` when `json.NewDecoder(r.Body).Decode` fails. -/
def Handler.ChatStream (env : Env) (db : DB) (body : Option ChatAPIRequest) : Outcome :=
  match body with
  | none =>
    { db := db, reply := some (400, "Invalid request body"), writer := [],
      chatCalls := [], dbCalls := [], titleJob := none }
  | some req =>
    if req.message = [] ∨ req.model = [] then
      { db := db, reply := some (400, "Message and model are required"), writer := [],
        chatCalls := [], dbCalls := [], titleJob := none }
    else if req.conversationID = [] then
      let r := db.CreateConversation env.failCreateConversation env.nowConv env.convID
        (ascii "New Chat") req.model
      if !r.2 then
        { db := r.1, reply := some (500, "Failed to create conversation"), writer := [],
          chatCalls := [],
          dbCalls := [DbCall.createConversation env.convID (ascii "New Chat") req.model false],
          titleJob := none }
      else
        Handler.turn env r.1
          [DbCall.createConversation env.convID (ascii "New Chat") req.model true]
          req env.convID
    else
      Handler.turn env db [] req req.conversationID

/-! ## The title goroutine -/

/-- Everything the title goroutine obtains from its surroundings. -/
structure TitleEnv where
  /-- The upstream inference service, non-streaming endpoint. -/
  upstream : ChatRequest → ChatReply
  /-- The decoder `json.NewDecoder(resp.Body).Decode`. -/
  decodeBody : GoString → Except GoString ChatResponse
  /-- The library function `strings.TrimSpace`. -/
  trimSpace : GoString → GoString
  /-- Connection fault of the title update. -/
  failUpdate : Bool
  /-- Result of `time.Now()` inside `UpdateConversationTitle`. -/
  now : Nat

/-- The goroutine started at handlers.go lines 317-327: the database afterwards and the
storage calls it made. -/
def titleTask (tenv : TitleEnv) (job : TitleJob) (db : DB) : DB × List DbCall :=
  match Client.GenerateTitle tenv.upstream tenv.decodeBody job.model job.message with
  | Except.error _ => (db, [])
  | Except.ok title =>
    let title := tenv.trimSpace title
    if title ≠ [] then
      let r := db.UpdateConversationTitle tenv.failUpdate tenv.now job.conversationID title
      (r.1, [DbCall.updateConversationTitle job.conversationID title r.2])
    else (db, [])

/-! ## Observations on an outcome -/

/-- The events written to the channel, in emission order. -/
def Writer.events (w : Writer) : List Event := w.map (fun x => x.event)

/-- Payload of a `chunk` event, `none` for the other events. -/
def Event.asChunk : Event → Option ChunkEvent
  | Event.chunk c => some c
  | _ => none

/-- Whether an event is an `error` event. -/
def Event.isError : Event → Bool
  | Event.error _ => true
  | _ => false

/-- The `chunk` events written to the channel, in emission order. -/
def Writer.chunks (w : Writer) : List ChunkEvent := w.events.filterMap Event.asChunk

/-- Concatenation of the `content` fields of the emitted `chunk` events. -/
def Writer.chunkContent (w : Writer) : GoString := w.chunks.flatMap (fun c => c.content)

/-- Whether a storage call hands an `assistant` message to `CreateMessage`. -/
def DbCall.savesAssistant : DbCall → Bool
  | DbCall.createMessage msg _ => msg.role == ascii "assistant"
  | _ => false

/-- Whether a storage call is `TouchConversation`. -/
def DbCall.isTouch : DbCall → Bool
  | DbCall.touchConversation _ _ => true
  | _ => false

/-- The `assistant` messages stored in a database. -/
def DB.assistantMessages (d : DB) : List Message :=
  d.messages.filter (fun m => m.role == ascii "assistant")

/-! ## The chunk sequence in the words of the specification -/

/-- The lines of the body that are non-empty and decode successfully, in arrival order. -/
def decodedLines (unmarshal : GoString → Option ChatResponse) (tokens : List ScanToken) :
    List ChatResponse :=
  ((tokens.map (fun t => t.line)).filter (fun l => l ≠ [])).filterMap unmarshal

/-- A chunk sequence truncated just after its first chunk whose `done` flag is set. -/
def throughDone : List ChatResponse → List ChatResponse
  | [] => []
  | c :: cs => if c.done then [c] else c :: throughDone cs

/-- The chunks `Client.ChatStream` is specified to deliver for a body with success status. -/
def deliveredChunks (unmarshal : GoString → Option ChatResponse) (tokens : List ScanToken) :
    List ChatResponse :=
  throughDone (decodedLines unmarshal tokens)

/-- The `chunk` event the relay emits for an upstream chunk. -/
def chunkOf (resp : ChatResponse) : ChunkEvent :=
  { content := resp.message.content, done := resp.done,
    totalTokens := if resp.done then some (addInt resp.evalCount resp.promptEvalCount) else none,
    evalCount := if resp.done then some resp.evalCount else none,
    duration := if resp.done then some ⟨resp.totalDuration⟩ else none }

/-! ## Sample inputs -/

/-- A toy decoder: a line starting with byte `1` is a final chunk, one starting with byte `0`
an intermediate chunk, anything else is malformed; the rest of the line is the content. -/
def sampleUnmarshal : GoString → Option ChatResponse
  | 0 :: rest => some { model := ascii "m1", message := ⟨ascii "assistant", rest⟩,
                        done := false, totalDuration := 0, promptEvalCount := 0, evalCount := 0 }
  | 1 :: rest => some { model := ascii "m1", message := ⟨ascii "assistant", rest⟩,
                        done := true, totalDuration := 2000000000, promptEvalCount := 7,
                        evalCount := 5 }
  | _ => none

/-- A stored form of timestamps that keeps the order of the instants below 65536: the two
bytes of the instant, high byte first. -/
def sampleStored (t : Nat) : GoString := [Fin.ofNat (t / 256), Fin.ofNat (t % 256)]

/-- An environment whose upstream answers with the given reply and in which no storage call
and no client write fails. -/
def sampleEnv (reply : StreamReply) : Env :=
  { convID := ascii "c-new", userMsgID := ascii "u1", asstMsgID := ascii "a1",
    nowConv := 10, nowUser := 11, nowAsst := 12, nowTouch := 13,
    failCreateConversation := false, failSaveUser := false, failLoadHistory := false,
    failSaveAssistant := false, failTouch := false, historyRows := none,
    storedTime := sampleStored, flusher := true,
    writeFails := fun _ => false, upstream := fun _ => reply, unmarshal := sampleUnmarshal }

/-- The empty database. -/
def emptyDB : DB := { conversations := [], messages := [] }

/-- A first turn: no conversation id, model `m1`, message `hello`. -/
def sampleRequest : ChatAPIRequest :=
  { conversationID := [], model := ascii "m1", message := ascii "hello", options := none }

/-- A body of three lines, `He`, a malformed line and a final `y!`, read without error. -/
def sampleBody : StreamReply :=
  StreamReply.response 200 []
    [⟨0 :: ascii "He", none⟩, ⟨[], none⟩, ⟨[9, 9], none⟩, ⟨1 :: ascii "y!", none⟩,
     ⟨0 :: ascii "never read", none⟩] none

/-! ## Derived notions: the chunks a request delivers -/

/-- Folding a callback that never fails over a chunk sequence. -/
def feed {σ : Type} (onChunk : σ → ChatResponse → σ × Option GoString) (s : σ)
    (cs : List ChatResponse) : σ :=
  cs.foldl (fun s c => (onChunk s c).1) s

/-- The chunks the client delivers for a request: none unless the service answers with
success status, otherwise the chunks of the body. -/
def streamChunks (upstream : ChatRequest → StreamReply)
    (unmarshal : GoString → Option ChatResponse) (req : ChatRequest) : List ChatResponse :=
  match upstream { req with stream := true } with
  | StreamReply.failed _ => []
  | StreamReply.response status _ tokens _ =>
    if status ≠ 200 then [] else deliveredChunks unmarshal tokens

/-! ## Derived notions: the intermediate values of a turn -/

/-- The request the handler sends to the inference client (handlers.go lines 233-239 and
263-267). -/
def Handler.chatRequest (req : ChatAPIRequest) (history : List Message) : ChatRequest :=
  { model := req.model,
    messages := history.map (fun m => { role := m.role, content := m.content }),
    stream := false, options := req.options }

/-- The callback state when streaming starts: the `init` event written, accumulators at
their zero values. -/
def Handler.initialState (env : Env) (conversationID : GoString) : TurnState :=
  { writer := (fprintf env [] (Event.init conversationID)).1, fullResponse := [],
    totalTokens := 0, totalDuration := ⟨0⟩ }

/-- The callback state when `Client.ChatStream` returns. -/
def Handler.finalState (env : Env) (req : ChatAPIRequest) (conversationID : GoString)
    (history : List Message) : TurnState :=
  feed (onChunk env) (Handler.initialState env conversationID)
    (streamChunks env.upstream env.unmarshal (Handler.chatRequest req history))

/-- The assistant message built at handlers.go lines 303-312. -/
def Handler.assistantMessage (env : Env) (req : ChatAPIRequest) (conversationID : GoString)
    (st : TurnState) : Message :=
  { id := env.asstMsgID, conversationID := conversationID, role := ascii "assistant",
    content := st.fullResponse, model := req.model, tokensUsed := st.totalTokens,
    duration := st.totalDuration, createdAt := env.nowAsst }

/-- The conversation id under which the turn runs (handlers.go lines 209-217). -/
def Handler.resolvedID (env : Env) (req : ChatAPIRequest) : GoString :=
  if req.conversationID = [] then env.convID else req.conversationID

/-- The database once the conversation of the turn exists. -/
def Handler.startDB (env : Env) (db : DB) (req : ChatAPIRequest) : DB :=
  if req.conversationID = [] then
    (db.CreateConversation env.failCreateConversation env.nowConv env.convID
      (ascii "New Chat") req.model).1
  else db

/-- The storage calls made before the inbound message is saved. -/
def Handler.startCalls (env : Env) (req : ChatAPIRequest) : List DbCall :=
  if req.conversationID = [] then
    [DbCall.createConversation env.convID (ascii "New Chat") req.model true]
  else []

/-- The inbound message built at handlers.go lines 219-225. -/
def Handler.userMessage (env : Env) (req : ChatAPIRequest) : Message :=
  { id := env.userMsgID, conversationID := Handler.resolvedID env req, role := ascii "user",
    content := req.message, model := [], tokensUsed := 0, duration := ⟨0⟩,
    createdAt := env.nowUser }

/-- The database after the inbound message was saved. -/
def Handler.savedDB (env : Env) (db : DB) (req : ChatAPIRequest) : DB :=
  ((Handler.startDB env db req).CreateMessage env.failSaveUser (Handler.userMessage env req)).1

/-- The result of loading the history (handlers.go line 232), `none` on a read error. -/
def Handler.loaded (env : Env) (db : DB) (req : ChatAPIRequest) : Option (List Message) :=
  (Handler.savedDB env db req).GetMessages env.failLoadHistory env.historyRows env.storedTime
    (Handler.resolvedID env req)

/-- The storage calls made before streaming starts. -/
def Handler.streamCalls (env : Env) (db : DB) (req : ChatAPIRequest) : List DbCall :=
  Handler.startCalls env req ++
    [DbCall.createMessage (Handler.userMessage env req) true,
     DbCall.getMessages (Handler.resolvedID env req) (Handler.loaded env db req).isSome]

/-- The seven ways `Handler.ChatStream` can end, each with the outcome it produces. -/
inductive TurnEnd (env : Env) (db : DB) : Option ChatAPIRequest → Outcome → Prop where
  /-- The request body does not decode. -/
  | badBody :
    TurnEnd env db none
      { db := db, reply := some (400, "Invalid request body"), writer := [],
        chatCalls := [], dbCalls := [], titleJob := none }
  /-- The message text or the model name is empty. -/
  | invalid (req : ChatAPIRequest) (h : req.message = [] ∨ req.model = []) :
    TurnEnd env db (some req)
      { db := db, reply := some (400, "Message and model are required"), writer := [],
        chatCalls := [], dbCalls := [], titleJob := none }
  /-- The conversation could not be created. -/
  | noConversation (req : ChatAPIRequest) (hmsg : req.message ≠ []) (hmod : req.model ≠ []) :
    TurnEnd env db (some req)
      { db := db, reply := some (500, "Failed to create conversation"), writer := [],
        chatCalls := [],
        dbCalls := [DbCall.createConversation env.convID (ascii "New Chat") req.model false],
        titleJob := none }
  /-- The inbound message could not be saved. -/
  | notSaved (req : ChatAPIRequest) (hmsg : req.message ≠ []) (hmod : req.model ≠ [])
      (hfail : ((Handler.startDB env db req).CreateMessage env.failSaveUser
        (Handler.userMessage env req)).2 = false) :
    TurnEnd env db (some req)
      { db := Handler.startDB env db req, reply := some (500, "Failed to save message"),
        writer := [], chatCalls := [],
        dbCalls := Handler.startCalls env req ++
          [DbCall.createMessage (Handler.userMessage env req) false],
        titleJob := none }
  /-- The response writer cannot flush. -/
  | noFlusher (req : ChatAPIRequest) (hmsg : req.message ≠ []) (hmod : req.model ≠ [])
      (hsaved : ((Handler.startDB env db req).CreateMessage env.failSaveUser
        (Handler.userMessage env req)).2 = true)
      (hfl : env.flusher = false) :
    TurnEnd env db (some req)
      { db := Handler.savedDB env db req, reply := some (500, "Streaming not supported"),
        writer := [], chatCalls := [], dbCalls := Handler.streamCalls env db req,
        titleJob := none }
  /-- The inference client returned an error. -/
  | failed (req : ChatAPIRequest) (hmsg : req.message ≠ []) (hmod : req.model ≠ [])
      (hsaved : ((Handler.startDB env db req).CreateMessage env.failSaveUser
        (Handler.userMessage env req)).2 = true)
      (hfl : env.flusher = true) (e : ClientError) :
    TurnEnd env db (some req)
      { db := Handler.savedDB env db req, reply := none,
        writer := (fprintf env (Handler.finalState env req (Handler.resolvedID env req)
          ((Handler.loaded env db req).getD [])).writer (Event.error e)).1,
        chatCalls := [(Handler.chatRequest req ((Handler.loaded env db req).getD []), some e)],
        dbCalls := Handler.streamCalls env db req, titleJob := none }
  /-- The inference client returned without error. -/
  | completed (req : ChatAPIRequest) (hmsg : req.message ≠ []) (hmod : req.model ≠ [])
      (hsaved : ((Handler.startDB env db req).CreateMessage env.failSaveUser
        (Handler.userMessage env req)).2 = true)
      (hfl : env.flusher = true) :
    TurnEnd env db (some req)
      { db := (((Handler.savedDB env db req).CreateMessage env.failSaveAssistant
            (Handler.assistantMessage env req (Handler.resolvedID env req)
              (Handler.finalState env req (Handler.resolvedID env req)
                ((Handler.loaded env db req).getD [])))).1.TouchConversation
            env.failTouch env.nowTouch (Handler.resolvedID env req)).1,
        reply := none,
        writer := (Handler.finalState env req (Handler.resolvedID env req)
          ((Handler.loaded env db req).getD [])).writer,
        chatCalls := [(Handler.chatRequest req ((Handler.loaded env db req).getD []), none)],
        dbCalls := Handler.streamCalls env db req ++
          [DbCall.createMessage
            (Handler.assistantMessage env req (Handler.resolvedID env req)
              (Handler.finalState env req (Handler.resolvedID env req)
                ((Handler.loaded env db req).getD [])))
            ((Handler.savedDB env db req).CreateMessage env.failSaveAssistant
              (Handler.assistantMessage env req (Handler.resolvedID env req)
                (Handler.finalState env req (Handler.resolvedID env req)
                  ((Handler.loaded env db req).getD [])))).2,
           DbCall.touchConversation (Handler.resolvedID env req)
            (((Handler.savedDB env db req).CreateMessage env.failSaveAssistant
              (Handler.assistantMessage env req (Handler.resolvedID env req)
                (Handler.finalState env req (Handler.resolvedID env req)
                  ((Handler.loaded env db req).getD [])))).1.TouchConversation
              env.failTouch env.nowTouch (Handler.resolvedID env req)).2],
        titleJob := if ((Handler.loaded env db req).getD []).length ≤ 1 then
            some { model := req.model, message := req.message,
                   conversationID := Handler.resolvedID env req }
          else none }

/-! ## Further sample inputs -/

/-- A body whose single chunk is followed by a read error of the scanner. -/
def brokenBody : StreamReply :=
  StreamReply.response 200 [] [⟨0 :: ascii "He", none⟩] (some (ascii "unexpected EOF"))

/-- An upstream answer with status 500 on first contact. -/
def unavailableReply : StreamReply :=
  StreamReply.response 500 (ascii "overloaded") [] none

/-- A request without message text. -/
def emptyMessageRequest : ChatAPIRequest :=
  { conversationID := [], model := ascii "m1", message := [], options := none }

/-- A body whose single chunk is not marked done, read to its end without error. -/
def unfinishedBody : StreamReply :=
  StreamReply.response 200 [] [⟨0 :: ascii "He", none⟩] none

/-- A decoder yielding a final chunk whose counters are at the top of the `int` range. -/
def hugeUnmarshal : GoString → Option ChatResponse :=
  fun line => some { model := ascii "m1", message := ⟨ascii "assistant", line⟩, done := true,
                     totalDuration := 1, promptEvalCount := 1,
                     evalCount := 9223372036854775807 }

/-- The sample environment with the decoder replaced by `hugeUnmarshal`. -/
def hugeEnv : Env := { sampleEnv unfinishedBody with unmarshal := hugeUnmarshal }

/-! ## The title goroutine: specification wording and sample inputs -/

/-- Whether a byte is ASCII white space (tab, line feed, vertical tab, form feed, carriage
return, space). -/
def isAsciiSpace (b : Fin 256) : Bool :=
  b == 9 || b == 10 || b == 11 || b == 12 || b == 13 || b == 32

/-- Behaviour of the library function `strings.TrimSpace` on a string all of whose bytes are
ASCII: leading and trailing white space removed.  Used to run the title goroutine on
ASCII replies. -/
def asciiTrimSpace (s : GoString) : GoString :=
  ((s.dropWhile isAsciiSpace).reverse.dropWhile isAsciiSpace).reverse

/-- The title that the wording "trim, then, if non-empty, truncate to 80 and write"
prescribes for a reply; `none` when no title is to be written. -/
def titleTrimmedThenTruncated (trimSpace : GoString → GoString) (reply : GoString) :
    Option GoString :=
  let t := trimSpace reply
  if t ≠ [] then some (t.take 80) else none

/-- The titles handed to `UpdateConversationTitle` in a list of storage calls. -/
def writtenTitles : List DbCall → List GoString
  | [] => []
  | DbCall.updateConversationTitle _ title _ :: rest => title :: writtenTitles rest
  | _ :: rest => writtenTitles rest

/-- A reply of eighty spaces followed by `Hi`. -/
def paddedReply : GoString := List.replicate 80 32 ++ ascii "Hi"

/-- A title environment whose upstream answers with the given text as message content. -/
def sampleTitleEnv (reply : GoString) : TitleEnv :=
  { upstream := fun _ => ChatReply.response 200 reply,
    decodeBody := fun body => Except.ok
      { model := ascii "m1", message := ⟨ascii "assistant", body⟩, done := true,
        totalDuration := 0, promptEvalCount := 0, evalCount := 0 },
    trimSpace := asciiTrimSpace, failUpdate := false, now := 20 }

/-- The job started by the first sample turn. -/
def sampleJob : TitleJob :=
  { model := ascii "m1", message := ascii "hello", conversationID := ascii "c-new" }

/-- A database holding the conversation of the first sample turn. -/
def sampleTitleDB : DB :=
  { conversations := [{ id := ascii "c-new", title := ascii "New Chat", model := ascii "m1",
                        createdAt := 10, updatedAt := 13 }],
    messages := [] }

/-! ## Sample inputs with storage faults -/

/-- The sample environment in which the read of the history fails. -/
def readFaultEnv : Env := { sampleEnv sampleBody with failLoadHistory := true }

/-- The sample environment in which the insert of the inbound message fails. -/
def writeFaultEnv : Env := { sampleEnv sampleBody with failSaveUser := true }

/-- A database with one conversation `c1` that already holds a complete exchange. -/
def busyDB : DB :=
  { conversations := [{ id := ascii "c1", title := ascii "Greetings", model := ascii "m1",
                        createdAt := 1, updatedAt := 3 }],
    messages :=
      [{ id := ascii "u0", conversationID := ascii "c1", role := ascii "user",
         content := ascii "hi", model := [], tokensUsed := 0, duration := ⟨0⟩, createdAt := 2 },
       { id := ascii "a0", conversationID := ascii "c1", role := ascii "assistant",
         content := ascii "yo", model := ascii "m1", tokensUsed := 9, duration := ⟨5⟩,
         createdAt := 3 }] }

/-- A second turn on conversation `c1`. -/
def followUpRequest : ChatAPIRequest :=
  { conversationID := ascii "c1", model := ascii "m1", message := ascii "more", options := none }

/-! ## Write failures, timestamps and further sample inputs -/

/-- A written event with its delivery flag erased. -/
def Written.eraseDelivery (x : Written) : Written := { x with delivered := true }

/-- A callback state with the delivery flags of the written events erased. -/
def TurnState.eraseDelivery (st : TurnState) : TurnState :=
  { st with writer := st.writer.map Written.eraseDelivery }

/-- An outcome with the delivery flags of the written events erased: everything the turn did
apart from whether each write reached the client. -/
def Outcome.eraseDelivery (o : Outcome) : Outcome :=
  { o with writer := o.writer.map Written.eraseDelivery }

/-- Whether an event is an `init` event. -/
def Event.isInit : Event → Bool
  | Event.init _ => true
  | _ => false

/-- The sample environment with a client that disconnects right after the `init` event:
every later write fails. -/
def disconnectedEnv : Env := { sampleEnv sampleBody with writeFails := fun n => decide (1 ≤ n) }

/-- The sample environment in which the insert of the assistant message fails. -/
def assistantFaultEnv : Env := { sampleEnv sampleBody with failSaveAssistant := true }

/-- The sample environment with a wall clock that is set back during the generation: the
assistant message is stamped 5, the user message 11. -/
def clockStepEnv : Env := { sampleEnv sampleBody with nowAsst := 5 }

/-- A database holding one conversation `c1` without messages. -/
def freshDB : DB :=
  { conversations := [{ id := ascii "c1", title := ascii "New Chat", model := ascii "m1",
                        createdAt := 1, updatedAt := 1 }],
    messages := [] }

/-- A first turn on the existing conversation `c1`. -/
def firstTurnRequest : ChatAPIRequest :=
  { conversationID := ascii "c1", model := ascii "m1", message := ascii "hello",
    options := none }

/-! ## `internal/config` and the CORS middleware of `internal/api/router.go` -/

/-- Go `config.Config`. -/
structure Config where
  port : GoString
  host : GoString
  ollamaBaseURL : GoString
  dbPath : GoString
  frontendURL : GoString
  apiSecretKey : GoString
deriving DecidableEq, Repr

/-- Go `getEnv` (config.go lines 42-47); `lookup` is `os.Getenv`. -/
def getEnv (lookup : GoString → GoString) (key fallback : GoString) : GoString :=
  if lookup key ≠ [] then lookup key else fallback

/-- The library call `strings.Split(s, ",")`: the pieces of `s` between commas. -/
def splitComma : GoString → List GoString
  | [] => [[]]
  | b :: rest =>
    if b = 44 then [] :: splitComma rest
    else
      match splitComma rest with
      | [] => [[b]]
      | piece :: pieces => (b :: piece) :: pieces

/-- The origin that is always allowed, `http://localhost:3000`. -/
def localhostOrigin : GoString := ascii "http://localhost:3000"

/-- Go `Config.CORSOrigins` (config.go lines 28-40); `trimSpace` is the library function
`strings.TrimSpace`. -/
def Config.CORSOrigins (lookup : GoString → GoString) (trimSpace : GoString → GoString)
    (c : Config) : List GoString :=
  let origins := [c.frontendURL]
  let origins :=
    if c.frontendURL ≠ localhostOrigin then origins ++ [localhostOrigin] else origins
  let extra := getEnv lookup (ascii "CORS_ORIGINS") []
  if extra ≠ [] then
    (splitComma extra).foldl (fun acc o => acc ++ [trimSpace o]) origins
  else origins

/-- A Go `http.Header` holding at most one value per key: the value stored under each key. -/
abbrev Header := GoString → Option GoString

/-- Go `Header.Set`: replaces the value stored under the key. -/
def Header.set (h : Header) (key value : GoString) : Header :=
  fun k => if k = key then some value else h k

/-- Go `Header.Get`: the value stored under the key, the empty string when there is none. -/
def Header.get (h : Header) (key : GoString) : GoString := (h key).getD []

/-- The parts of a request the CORS middleware reads. -/
structure CorsRequest where
  method : GoString
  header : Header

/-- What the CORS middleware does with a request: the response headers it sets, the status
it writes (if any), and whether it passes the request on to the next handler. -/
structure CorsResponse where
  header : Header
  status : Option Nat
  passedOn : Bool

/-- The loop of `corsHandler` that decides `allowed` (router.go lines 62-68). -/
def originAllowed (origin : GoString) : List GoString → Bool
  | [] => false
  | o :: rest => if o = origin ∨ o = ascii "*" then true else originAllowed origin rest

/-- The header `Access-Control-Allow-Origin`. -/
def allowOriginKey : GoString := ascii "Access-Control-Allow-Origin"

/-- Go `corsHandler` (router.go lines 57-86), applied to a request; the response starts
with no headers set. -/
def corsHandler (lookup : GoString → GoString) (trimSpace : GoString → GoString)
    (cfg : Config) (r : CorsRequest) : CorsResponse :=
  let origins := cfg.CORSOrigins lookup trimSpace
  let origin := r.header.get (ascii "Origin")
  let allowed := originAllowed origin origins
  let h : Header := fun _ => none
  let h := if allowed then h.set allowOriginKey origin else h
  let h := h.set (ascii "Access-Control-Allow-Methods")
    (ascii "GET, POST, PUT, PATCH, DELETE, OPTIONS")
  let h := h.set (ascii "Access-Control-Allow-Headers")
    (ascii "Content-Type, Authorization, X-API-Key")
  let h := h.set (ascii "Access-Control-Allow-Credentials") (ascii "true")
  let h := h.set (ascii "Access-Control-Max-Age") (ascii "86400")
  if r.method = ascii "OPTIONS" then { header := h, status := some 204, passedOn := false }
  else { header := h, status := none, passedOn := true }

/-- The default configuration of `config.Load`. -/
def defaultConfig : Config :=
  { port := ascii "8080", host := ascii "0.0.0.0",
    ollamaBaseURL := ascii "http://localhost:11434", dbPath := ascii "./zee-ai.db",
    frontendURL := ascii "http://localhost:3000", apiSecretKey := [] }

/-- A process environment in which only `CORS_ORIGINS` is set, to the given value. -/
def corsLookup (value : GoString) : GoString → GoString :=
  fun key => if key = ascii "CORS_ORIGINS" then value else []

/-! ## Stored timestamps -/

/-- Whether the stored value of the first instant sorts strictly before that of the second
in SQLite's byte-wise order. -/
def storedBefore (stored : Nat → GoString) (t₁ t₂ : Nat) : Prop :=
  bytesLE (stored t₁) (stored t₂) = true ∧ bytesLE (stored t₂) (stored t₁) = false

/-- The stored form of a local wall clock that is set back by one hour at instant 20 (the
end of daylight saving time): instants before 20 are rendered one hour ahead. -/
def fallBackStored (t : Nat) : GoString := sampleStored (if t < 20 then t + 3600 else t)

/-- The sample environment with the assistant message stamped at instant 31, twenty
instants after the user message, and timestamps stored as that local wall clock. -/
def fallBackEnv : Env :=
  { sampleEnv sampleBody with nowAsst := 31, nowTouch := 32, storedTime := fallBackStored }

/-! ## The line scanner of `Client.ChatStream` -/

/-- The size of the scanner's buffer, which is also its token limit (client.go line 143). -/
def maxTokenSize : Nat := 1024 * 1024

/-- The error `bufio.ErrTooLong`. -/
def errTooLong : GoString := ascii "bufio.Scanner: token too long"

/-- The function `dropCR` of `bufio.ScanLines`: a line without its trailing carriage
return. -/
def dropCR (line : GoString) : GoString :=
  if line.getLast? = some 13 then line.dropLast else line

/-- What a `bufio.Scanner` with `bufio.ScanLines` and that buffer yields for a body that is
read to its end without a read error, the body given by its lines (the byte sequences
between line feeds): every line shorter than the buffer becomes a token, and the first line
that does not fit ends the scan with `ErrTooLong`. -/
def scanLines : List GoString → List ScanToken × Option GoString
  | [] => ([], none)
  | line :: rest =>
    if maxTokenSize ≤ line.length then ([], some errTooLong)
    else (({ line := dropCR line, errAfter := none } : ScanToken) :: (scanLines rest).1,
          (scanLines rest).2)

/-- The tokens of the sample body. -/
def sampleTokens : List ScanToken :=
  [⟨0 :: ascii "He", none⟩, ⟨[], none⟩, ⟨[9, 9], none⟩, ⟨1 :: ascii "y!", none⟩,
   ⟨0 :: ascii "never read", none⟩]

/-- An upstream answer with the success status 201 and the lines of the sample body. -/
def createdReply : StreamReply := StreamReply.response 201 (ascii "created") sampleTokens none

/-- A line of one byte more than the scanner's buffer that decodes to a chunk. -/
def longLine : GoString := 0 :: List.replicate maxTokenSize 120

/-- An upstream answer with status 200 whose body is the long line followed by a final
chunk, as the scanner reads it. -/
def oversizedReply : StreamReply :=
  StreamReply.response 200 [] (scanLines [longLine, 1 :: ascii "y!"]).1
    (scanLines [longLine, 1 :: ascii "y!"]).2

/-- The callback that records the content of the chunks it is given. -/
def recordContent (acc : List GoString) (c : ChatResponse) : List GoString :=
  acc ++ [c.message.content]

/-! ## The scanning loop of the client -/

theorem deliveredChunks_nil (um : GoString → Option ChatResponse) :
    deliveredChunks um [] = [] := rfl

theorem deliveredChunks_cons_empty (um : GoString → Option ChatResponse) (t : ScanToken)
    (rest : List ScanToken) (h : t.line.length = 0) :
    deliveredChunks um (t :: rest) = deliveredChunks um rest := by
  have h0 : t.line = [] := List.length_eq_zero.mp h
  simp [deliveredChunks, decodedLines, h0]

theorem deliveredChunks_cons_bad (um : GoString → Option ChatResponse) (t : ScanToken)
    (rest : List ScanToken) (h : um t.line = none) :
    deliveredChunks um (t :: rest) = deliveredChunks um rest := by
  by_cases h0 : t.line = []
  · simp [deliveredChunks, decodedLines, h0]
  · simp [deliveredChunks, decodedLines, h0, List.filterMap_cons, h]

theorem deliveredChunks_cons_ok (um : GoString → Option ChatResponse) (t : ScanToken)
    (rest : List ScanToken) (c : ChatResponse) (h0 : ¬ t.line.length = 0)
    (h : um t.line = some c) :
    deliveredChunks um (t :: rest) =
      if c.done then [c] else c :: deliveredChunks um rest := by
  have h1 : t.line ≠ [] := fun e => h0 (by simp [e])
  simp [deliveredChunks, decodedLines, h1, List.filterMap_cons, h, throughDone]

theorem scanLoop_state {σ : Type} (um : GoString → Option ChatResponse)
    (f : σ → ChatResponse → σ × Option GoString) (hf : ∀ s c, (f s c).2 = none)
    (toks : List ScanToken) (fin : Option GoString) (s : σ) :
    (Client.scanLoop um f toks fin s).1 = feed f s (deliveredChunks um toks) := by
  induction toks generalizing s with
  | nil => simp [Client.scanLoop, deliveredChunks_nil, feed]
  | cons t rest ih =>
    unfold Client.scanLoop
    by_cases h0 : t.line.length = 0
    · simp only [h0, if_true]
      rw [ih, deliveredChunks_cons_empty um t rest h0]
    · simp only [h0, if_false]
      cases hd : um t.line with
      | none =>
        simp only []
        rw [ih, deliveredChunks_cons_bad um t rest hd]
      | some c =>
        simp only []
        rw [deliveredChunks_cons_ok um t rest c h0 hd]
        have h2 := hf s c
        rcases hfc : f s c with ⟨s', e⟩
        rw [hfc] at h2
        simp only at h2
        subst h2
        by_cases hdone : c.done = true
        · simp [hdone, feed, hfc]
        · simp only [hdone]
          simp only [Bool.false_eq_true, if_false]
          rw [ih]
          simp [feed, hfc]

theorem scanLoop_error {σ : Type} (um : GoString → Option ChatResponse)
    (f : σ → ChatResponse → σ × Option GoString) (hf : ∀ s c, (f s c).2 = none)
    (toks : List ScanToken) (fin : Option GoString) (s : σ) :
    (Client.scanLoop um f toks fin s).2 = none ∨
      ∃ msg, (Client.scanLoop um f toks fin s).2 = some (ClientError.scan msg) ∧
        (fin = some msg ∨ ∃ t ∈ toks, t.errAfter = some msg) := by
  induction toks generalizing s with
  | nil =>
    cases fin with
    | none => left; simp [Client.scanLoop]
    | some m => right; exact ⟨m, by simp [Client.scanLoop], Or.inl rfl⟩
  | cons t rest ih =>
    have lift : ∀ s0 : σ,
        ((Client.scanLoop um f rest fin s0).2 = none ∨
          ∃ msg, (Client.scanLoop um f rest fin s0).2 = some (ClientError.scan msg) ∧
            (fin = some msg ∨ ∃ t0 ∈ t :: rest, t0.errAfter = some msg)) := by
      intro s0
      rcases ih s0 with h | ⟨m, hm, hsrc⟩
      · exact Or.inl h
      · refine Or.inr ⟨m, hm, ?_⟩
        rcases hsrc with h | ⟨t0, ht0, he⟩
        · exact Or.inl h
        · exact Or.inr ⟨t0, List.mem_cons_of_mem _ ht0, he⟩
    unfold Client.scanLoop
    by_cases h0 : t.line.length = 0
    · simp only [h0, if_true]
      exact lift s
    · simp only [h0, if_false]
      cases hd : um t.line with
      | none => simpa using lift s
      | some c =>
        simp only []
        have h2 := hf s c
        rcases hfc : f s c with ⟨s', e⟩
        rw [hfc] at h2
        simp only at h2
        subst h2
        by_cases hdone : c.done = true
        · simp only [hdone, if_true]
          cases he : t.errAfter with
          | none => left; simp
          | some m =>
            right
            exact ⟨m, by simp, Or.inr ⟨t, List.mem_cons_self _ _, he⟩⟩
        · simp only [hdone, if_false]
          exact lift s'

theorem ChatStream_state {σ : Type} (upstream : ChatRequest → StreamReply)
    (um : GoString → Option ChatResponse) (req : ChatRequest)
    (f : σ → ChatResponse → σ × Option GoString) (hf : ∀ s c, (f s c).2 = none) (s : σ) :
    (Client.ChatStream upstream um req f s).1 = feed f s (streamChunks upstream um req) := by
  unfold Client.ChatStream streamChunks
  cases upstream { req with stream := true } with
  | failed msg => simp [feed]
  | response status body toks fin =>
    by_cases hs : status = 200
    · simp [hs, scanLoop_state um f hf]
    · simp [hs, feed]

theorem throughDone_done_last (xs pre post : List ChatResponse) (c : ChatResponse)
    (h : throughDone xs = pre ++ c :: post) (hc : c.done = true) : post = [] := by
  induction xs generalizing pre with
  | nil => simp [throughDone] at h
  | cons x xs ih =>
    unfold throughDone at h
    by_cases hx : x.done = true
    · simp only [hx, if_true] at h
      cases pre with
      | nil => simp at h; exact h.2
      | cons p pre => simp at h
    · simp only [hx, if_false] at h
      cases pre with
      | nil =>
        simp at h
        exact absurd (h.1 ▸ hc) hx
      | cons p pre =>
        simp at h
        exact ih pre h.2

theorem streamChunks_done_last (upstream : ChatRequest → StreamReply)
    (um : GoString → Option ChatResponse) (req : ChatRequest) (pre post : List ChatResponse)
    (c : ChatResponse) (h : streamChunks upstream um req = pre ++ c :: post)
    (hc : c.done = true) : post = [] := by
  unfold streamChunks at h
  cases hu : upstream { req with stream := true } with
  | failed msg => simp [hu] at h
  | response status body toks fin =>
    rw [hu] at h
    by_cases hs : status = 200
    · simp only [hs, ne_eq, not_true_eq_false, if_false] at h
      exact throughDone_done_last _ pre post c h hc
    · simp [hs] at h

/-! ## The chunk callback of the relay and the streaming part of the handler -/

theorem onChunk_snd (env : Env) (st : TurnState) (c : ChatResponse) :
    (onChunk env st c).2 = none := rfl

theorem fprintf_events (env : Env) (w : Writer) (e : Event) :
    (fprintf env w e).1.events = w.events ++ [e] := by
  simp [fprintf, Writer.events]

theorem onChunk_events (env : Env) (st : TurnState) (c : ChatResponse) :
    (onChunk env st c).1.writer.events = st.writer.events ++ [Event.chunk (chunkOf c)] := by
  unfold onChunk
  simp only [fprintf_events]
  cases hd : c.done <;> simp [chunkOf, hd]

theorem onChunk_fullResponse (env : Env) (st : TurnState) (c : ChatResponse) :
    (onChunk env st c).1.fullResponse = st.fullResponse ++ c.message.content := rfl

theorem onChunk_totalTokens (env : Env) (st : TurnState) (c : ChatResponse) :
    (onChunk env st c).1.totalTokens =
      if c.done then addInt c.evalCount c.promptEvalCount else st.totalTokens := rfl

theorem onChunk_totalDuration (env : Env) (st : TurnState) (c : ChatResponse) :
    (onChunk env st c).1.totalDuration =
      if c.done then ⟨c.totalDuration⟩ else st.totalDuration := rfl

theorem feed_snoc {σ : Type} (f : σ → ChatResponse → σ × Option GoString) (s : σ)
    (cs : List ChatResponse) (c : ChatResponse) :
    feed f s (cs ++ [c]) = (f (feed f s cs) c).1 := by
  simp [feed, List.foldl_append]

theorem feed_events (env : Env) (st : TurnState) (cs : List ChatResponse) :
    (feed (onChunk env) st cs).writer.events =
      st.writer.events ++ cs.map (fun c => Event.chunk (chunkOf c)) := by
  induction cs using List.reverseRecOn with
  | nil => simp [feed]
  | append_singleton cs c ih => rw [feed_snoc, onChunk_events, ih]; simp

theorem feed_fullResponse (env : Env) (st : TurnState) (cs : List ChatResponse) :
    (feed (onChunk env) st cs).fullResponse =
      st.fullResponse ++ cs.flatMap (fun c => c.message.content) := by
  induction cs using List.reverseRecOn with
  | nil => simp [feed]
  | append_singleton cs c ih => rw [feed_snoc, onChunk_fullResponse, ih]; simp

theorem feed_totalTokens_done (env : Env) (st : TurnState) (cs : List ChatResponse)
    (c : ChatResponse) (hc : c.done = true) :
    (feed (onChunk env) st (cs ++ [c])).totalTokens = addInt c.evalCount c.promptEvalCount := by
  rw [feed_snoc, onChunk_totalTokens, if_pos hc]

theorem chunks_of_events (w : Writer) (ini : GoString) (cs : List ChatResponse)
    (h : w.events = Event.init ini :: cs.map (fun c => Event.chunk (chunkOf c))) :
    w.chunks = cs.map chunkOf := by
  unfold Writer.chunks
  rw [h]
  simp [List.filterMap_cons, Event.asChunk, List.filterMap_map, Function.comp_def]
  exact List.filterMap_eq_map chunkOf ▸ rfl

theorem chunks_of_events_error (w : Writer) (ini : GoString) (cs : List ChatResponse)
    (e : ClientError)
    (h : w.events = Event.init ini :: (cs.map (fun c => Event.chunk (chunkOf c)) ++
      [Event.error e])) :
    w.chunks = cs.map chunkOf := by
  unfold Writer.chunks
  rw [h]
  simp [List.filterMap_cons, Event.asChunk, List.filterMap_map, Function.comp_def,
    List.filterMap_append]
  exact List.filterMap_eq_map chunkOf ▸ rfl

theorem finalState_events (env : Env) (req : ChatAPIRequest) (cid : GoString)
    (history : List Message) :
    (Handler.finalState env req cid history).writer.events =
      Event.init cid ::
        (streamChunks env.upstream env.unmarshal (Handler.chatRequest req history)).map
          (fun c => Event.chunk (chunkOf c)) := by
  unfold Handler.finalState
  rw [feed_events]
  simp [Handler.initialState, fprintf, Writer.events]

theorem finalState_fullResponse (env : Env) (req : ChatAPIRequest) (cid : GoString)
    (history : List Message) :
    (Handler.finalState env req cid history).fullResponse =
      (streamChunks env.upstream env.unmarshal (Handler.chatRequest req history)).flatMap
        (fun c => c.message.content) := by
  unfold Handler.finalState
  rw [feed_fullResponse]
  simp [Handler.initialState]

theorem finalState_totalTokens (env : Env) (req : ChatAPIRequest) (cid : GoString)
    (history : List Message) (c : ChatResponse)
    (hmem : c ∈ streamChunks env.upstream env.unmarshal (Handler.chatRequest req history))
    (hc : c.done = true) :
    (Handler.finalState env req cid history).totalTokens =
      addInt c.evalCount c.promptEvalCount := by
  obtain ⟨pre, post, hsplit⟩ := List.append_of_mem hmem
  have hpost := streamChunks_done_last _ _ _ pre post c hsplit hc
  subst hpost
  unfold Handler.finalState
  rw [hsplit]
  exact feed_totalTokens_done env _ pre c hc

/-- The two ways the streaming part can end once the writer supports flushing: with an
inference error, or with the assistant message handed to storage. -/
theorem stream_outcome (env : Env) (db : DB) (calls : List DbCall) (req : ChatAPIRequest)
    (cid : GoString) (history : List Message) (hfl : env.flusher = true) :
    (∃ e, Handler.stream env db calls req cid history =
        { db := db, reply := none,
          writer := (fprintf env (Handler.finalState env req cid history).writer
            (Event.error e)).1,
          chatCalls := [(Handler.chatRequest req history, some e)],
          dbCalls := calls, titleJob := none }) ∨
    (Handler.stream env db calls req cid history =
        { db := ((db.CreateMessage env.failSaveAssistant
              (Handler.assistantMessage env req cid
                (Handler.finalState env req cid history))).1.TouchConversation
              env.failTouch env.nowTouch cid).1,
          reply := none,
          writer := (Handler.finalState env req cid history).writer,
          chatCalls := [(Handler.chatRequest req history, none)],
          dbCalls := calls ++
            [DbCall.createMessage
              (Handler.assistantMessage env req cid (Handler.finalState env req cid history))
              (db.CreateMessage env.failSaveAssistant
                (Handler.assistantMessage env req cid
                  (Handler.finalState env req cid history))).2,
             DbCall.touchConversation cid
              ((db.CreateMessage env.failSaveAssistant
                (Handler.assistantMessage env req cid
                  (Handler.finalState env req cid history))).1.TouchConversation
                env.failTouch env.nowTouch cid).2],
          titleJob := if history.length ≤ 1 then
              some { model := req.model, message := req.message, conversationID := cid }
            else none }) := by
  have hst := ChatStream_state env.upstream env.unmarshal (Handler.chatRequest req history)
    (onChunk env) (onChunk_snd env) (Handler.initialState env cid)
  rcases hres : Client.ChatStream env.upstream env.unmarshal (Handler.chatRequest req history)
    (onChunk env) (Handler.initialState env cid) with ⟨st, err⟩
  rw [hres] at hst
  simp only at hst
  have hfin : Handler.finalState env req cid history = st := by
    unfold Handler.finalState; exact hst.symm
  have hres' : Client.ChatStream env.upstream env.unmarshal
      { model := req.model,
        messages := history.map (fun m => { role := m.role, content := m.content }),
        stream := false, options := req.options }
      (onChunk env)
      { writer := (fprintf env [] (Event.init cid)).1, fullResponse := [],
        totalTokens := 0, totalDuration := ⟨0⟩ } = (st, err) := hres
  cases err with
  | some e =>
    left
    refine ⟨e, ?_⟩
    unfold Handler.stream
    simp only [hfl, Bool.not_true, Bool.false_eq_true, if_false, hres', hfin]
    rfl
  | none =>
    right
    unfold Handler.stream
    simp only [hfl, Bool.not_true, Bool.false_eq_true, if_false, hres', hfin]
    rfl

/-! ## Storage operations and the case analysis of a turn -/

theorem CreateConversation_failed (d : DB) (fault : Bool) (now : Nat)
    (id title model : GoString) (h : (d.CreateConversation fault now id title model).2 = false) :
    (d.CreateConversation fault now id title model).1 = d := by
  unfold DB.CreateConversation at h ⊢
  split
  · rfl
  · rename_i hc; simp [hc] at h

theorem CreateMessage_failed (d : DB) (fault : Bool) (msg : Message)
    (h : (d.CreateMessage fault msg).2 = false) : (d.CreateMessage fault msg).1 = d := by
  unfold DB.CreateMessage at h ⊢
  split
  · rfl
  · rename_i hc; simp [hc] at h

theorem CreateMessage_messages (d : DB) (fault : Bool) (msg : Message) :
    (d.CreateMessage fault msg).1.messages =
      if (d.CreateMessage fault msg).2 then d.messages ++ [msg] else d.messages := by
  unfold DB.CreateMessage
  split <;> simp

theorem CreateMessage_conversations (d : DB) (fault : Bool) (msg : Message) :
    (d.CreateMessage fault msg).1.conversations = d.conversations := by
  unfold DB.CreateMessage
  split <;> simp

theorem CreateConversation_messages (d : DB) (fault : Bool) (now : Nat)
    (id title model : GoString) :
    (d.CreateConversation fault now id title model).1.messages = d.messages := by
  unfold DB.CreateConversation
  split <;> simp

theorem TouchConversation_messages (d : DB) (fault : Bool) (now : Nat) (id : GoString) :
    (d.TouchConversation fault now id).1.messages = d.messages := by
  unfold DB.TouchConversation
  split <;> simp

theorem startDB_messages (env : Env) (db : DB) (req : ChatAPIRequest) :
    (Handler.startDB env db req).messages = db.messages := by
  unfold Handler.startDB
  split
  · exact CreateConversation_messages _ _ _ _ _ _
  · rfl

/-- The ways a turn with a well-formed request can run up to the streaming part. -/
theorem ChatStream_cases (env : Env) (db : DB) (req : ChatAPIRequest)
    (hmsg : req.message ≠ []) (hmod : req.model ≠ []) :
    (Handler.ChatStream env db (some req) =
        { db := db, reply := some (500, "Failed to create conversation"), writer := [],
          chatCalls := [],
          dbCalls := [DbCall.createConversation env.convID (ascii "New Chat") req.model false],
          titleJob := none }) ∨
    (((Handler.startDB env db req).CreateMessage env.failSaveUser
          (Handler.userMessage env req)).2 = false ∧
      Handler.ChatStream env db (some req) =
        { db := Handler.startDB env db req, reply := some (500, "Failed to save message"),
          writer := [], chatCalls := [],
          dbCalls := Handler.startCalls env req ++
            [DbCall.createMessage (Handler.userMessage env req) false],
          titleJob := none }) ∨
    (((Handler.startDB env db req).CreateMessage env.failSaveUser
          (Handler.userMessage env req)).2 = true ∧
      Handler.ChatStream env db (some req) =
        Handler.stream env (Handler.savedDB env db req) (Handler.streamCalls env db req) req
          (Handler.resolvedID env req) ((Handler.loaded env db req).getD [])) := by
  have turn_cases :
      (((Handler.startDB env db req).CreateMessage env.failSaveUser
          (Handler.userMessage env req)).2 = false ∧
        Handler.turn env (Handler.startDB env db req) (Handler.startCalls env req) req
            (Handler.resolvedID env req) =
          { db := Handler.startDB env db req, reply := some (500, "Failed to save message"),
            writer := [], chatCalls := [],
            dbCalls := Handler.startCalls env req ++
              [DbCall.createMessage (Handler.userMessage env req) false],
            titleJob := none }) ∨
      (((Handler.startDB env db req).CreateMessage env.failSaveUser
          (Handler.userMessage env req)).2 = true ∧
        Handler.turn env (Handler.startDB env db req) (Handler.startCalls env req) req
            (Handler.resolvedID env req) =
          Handler.stream env (Handler.savedDB env db req) (Handler.streamCalls env db req) req
            (Handler.resolvedID env req) ((Handler.loaded env db req).getD [])) := by
    cases hok : ((Handler.startDB env db req).CreateMessage env.failSaveUser
        (Handler.userMessage env req)).2 with
    | false =>
      left
      refine ⟨rfl, ?_⟩
      have hdb := CreateMessage_failed _ _ _ hok
      have hok' : ((Handler.startDB env db req).CreateMessage env.failSaveUser
          { id := env.userMsgID, conversationID := Handler.resolvedID env req,
            role := ascii "user", content := req.message, model := [], tokensUsed := 0,
            duration := ⟨0⟩, createdAt := env.nowUser }).2 = false := hok
      have hdb' : ((Handler.startDB env db req).CreateMessage env.failSaveUser
          { id := env.userMsgID, conversationID := Handler.resolvedID env req,
            role := ascii "user", content := req.message, model := [], tokensUsed := 0,
            duration := ⟨0⟩, createdAt := env.nowUser }).1 = Handler.startDB env db req := hdb
      unfold Handler.turn
      simp only [hok', hdb', Bool.not_false, if_true]
      rfl
    | true =>
      right
      refine ⟨rfl, ?_⟩
      have hok' : ((Handler.startDB env db req).CreateMessage env.failSaveUser
          { id := env.userMsgID, conversationID := Handler.resolvedID env req,
            role := ascii "user", content := req.message, model := [], tokensUsed := 0,
            duration := ⟨0⟩, createdAt := env.nowUser }).2 = true := hok
      unfold Handler.turn
      simp only [hok', Bool.not_true, Bool.false_eq_true, if_false]
      rfl
  unfold Handler.ChatStream
  simp only [hmsg, hmod, or_self, if_false]
  by_cases hc : req.conversationID = []
  · simp only [hc, if_true]
    cases hok : (db.CreateConversation env.failCreateConversation env.nowConv env.convID
        (ascii "New Chat") req.model).2 with
    | false =>
      left
      have hdb := CreateConversation_failed _ _ _ _ _ _ hok
      simp only [hdb, Bool.not_false, if_true]
    | true =>
      right
      simp only [Bool.not_true, Bool.false_eq_true, if_false]
      have e1 : (db.CreateConversation env.failCreateConversation env.nowConv env.convID
          (ascii "New Chat") req.model).1 = Handler.startDB env db req := by
        simp [Handler.startDB, hc]
      have e2 : [DbCall.createConversation env.convID (ascii "New Chat") req.model true] =
          Handler.startCalls env req := by simp [Handler.startCalls, hc]
      have e3 : Handler.turn env (Handler.startDB env db req) (Handler.startCalls env req) req
          env.convID = Handler.turn env (Handler.startDB env db req)
            (Handler.startCalls env req) req (Handler.resolvedID env req) := by
        simp [Handler.resolvedID, hc]
      rw [e1, e2, e3]
      exact turn_cases
  · simp only [hc, if_false]
    right
    have e1 : db = Handler.startDB env db req := by simp [Handler.startDB, hc]
    have e3 : Handler.turn env db [] req req.conversationID =
        Handler.turn env (Handler.startDB env db req) (Handler.startCalls env req) req
          (Handler.resolvedID env req) := by
      simp [Handler.resolvedID, Handler.startDB, Handler.startCalls, hc]
    rw [e3]
    exact turn_cases

theorem stream_no_flusher (env : Env) (db : DB) (calls : List DbCall) (req : ChatAPIRequest)
    (cid : GoString) (history : List Message) (hfl : env.flusher = false) :
    Handler.stream env db calls req cid history =
      { db := db, reply := some (500, "Streaming not supported"), writer := [],
        chatCalls := [], dbCalls := calls, titleJob := none } := by
  unfold Handler.stream
  simp [hfl]

/-- Every run of the handler ends in one of the seven ways. -/
theorem ChatStream_end (env : Env) (db : DB) (body : Option ChatAPIRequest) :
    TurnEnd env db body (Handler.ChatStream env db body) := by
  cases body with
  | none => exact TurnEnd.badBody
  | some req =>
    by_cases hv : req.message = [] ∨ req.model = []
    · have : Handler.ChatStream env db (some req) =
          { db := db, reply := some (400, "Message and model are required"), writer := [],
            chatCalls := [], dbCalls := [], titleJob := none } := by
        unfold Handler.ChatStream
        simp only [hv, if_true]
      rw [this]
      exact TurnEnd.invalid req hv
    · have hmsg : req.message ≠ [] := fun h => hv (Or.inl h)
      have hmod : req.model ≠ [] := fun h => hv (Or.inr h)
      rcases ChatStream_cases env db req hmsg hmod with h | ⟨hf, h⟩ | ⟨hs, h⟩
      · rw [h]; exact TurnEnd.noConversation req hmsg hmod
      · rw [h]; exact TurnEnd.notSaved req hmsg hmod hf
      · rw [h]
        cases hfl : env.flusher with
        | false =>
          rw [stream_no_flusher _ _ _ _ _ _ hfl]
          exact TurnEnd.noFlusher req hmsg hmod hs hfl
        | true =>
          rcases stream_outcome env (Handler.savedDB env db req)
            (Handler.streamCalls env db req) req (Handler.resolvedID env req)
            ((Handler.loaded env db req).getD []) hfl with ⟨e, he⟩ | hc
          · rw [he]; exact TurnEnd.failed req hmsg hmod hs hfl e
          · rw [hc]; exact TurnEnd.completed req hmsg hmod hs hfl

theorem streamCalls_plain (env : Env) (db : DB) (req : ChatAPIRequest) (c : DbCall)
    (hc : c ∈ Handler.streamCalls env db req) :
    c.savesAssistant = false ∧ c.isTouch = false ∧
      ∀ m, c ≠ DbCall.createMessage m false := by
  unfold Handler.streamCalls Handler.startCalls at hc
  have hrole : (ascii "user" == ascii "assistant") = false := by decide
  split at hc
  · simp only [List.cons_append, List.nil_append, List.mem_cons, List.mem_singleton,
      List.not_mem_nil, or_false] at hc
    rcases hc with h | h | h <;> subst h <;>
      simp [DbCall.savesAssistant, DbCall.isTouch, Handler.userMessage, hrole]
  · simp only [List.nil_append, List.mem_cons, List.mem_singleton,
      List.not_mem_nil, or_false] at hc
    rcases hc with h | h <;> subst h <;>
      simp [DbCall.savesAssistant, DbCall.isTouch, Handler.userMessage, hrole]

theorem savedDB_messages (env : Env) (db : DB) (req : ChatAPIRequest)
    (hsaved : ((Handler.startDB env db req).CreateMessage env.failSaveUser
      (Handler.userMessage env req)).2 = true) :
    (Handler.savedDB env db req).messages = db.messages ++ [Handler.userMessage env req] := by
  unfold Handler.savedDB
  rw [CreateMessage_messages, hsaved, startDB_messages]
  simp

theorem savedDB_assistantMessages (env : Env) (db : DB) (req : ChatAPIRequest)
    (hsaved : ((Handler.startDB env db req).CreateMessage env.failSaveUser
      (Handler.userMessage env req)).2 = true) :
    (Handler.savedDB env db req).assistantMessages = db.assistantMessages := by
  have hrole : (ascii "user" == ascii "assistant") = false := by decide
  unfold DB.assistantMessages
  rw [savedDB_messages env db req hsaved]
  simp [List.filter_append, Handler.userMessage, hrole]

/-! ## Properties of a chat turn -/

theorem completed_chunkContent (env : Env) (req : ChatAPIRequest) (cid : GoString)
    (history : List Message) :
    (Handler.finalState env req cid history).writer.chunkContent =
      (Handler.finalState env req cid history).fullResponse := by
  unfold Writer.chunkContent
  rw [chunks_of_events _ cid _ (finalState_events env req cid history),
    finalState_fullResponse]
  simp [List.flatMap, List.map_map, Function.comp_def, chunkOf]

/-- C1: when the inference client returns without error, an assistant message is handed to
`CreateMessage`, it is the only one, and its content equals the concatenation, in emission
order, of the `content` fields of the emitted `chunk` events. -/
theorem chunk_content_eq_assistant_content (env : Env) (db : DB)
    (body : Option ChatAPIRequest) (creq : ChatRequest)
    (hdone : (creq, none) ∈ (Handler.ChatStream env db body).chatCalls) :
    ∃ m ok, DbCall.createMessage m ok ∈ (Handler.ChatStream env db body).dbCalls ∧
      m.role = ascii "assistant" ∧
      (Handler.ChatStream env db body).writer.chunkContent = m.content ∧
      ∀ m' ok', DbCall.createMessage m' ok' ∈ (Handler.ChatStream env db body).dbCalls →
        m'.role = ascii "assistant" → m' = m := by
  have hend := ChatStream_end env db body
  generalize Handler.ChatStream env db body = out at hend hdone
  cases hend with
  | badBody => simp at hdone
  | invalid req h => simp at hdone
  | noConversation req hmsg hmod => simp at hdone
  | notSaved req hmsg hmod hfail => simp at hdone
  | noFlusher req hmsg hmod hsaved hfl => simp at hdone
  | failed req hmsg hmod hsaved hfl e => simp at hdone
  | completed req hmsg hmod hsaved hfl =>
    refine ⟨_, _, List.mem_append_right _ (List.mem_cons_self _ _), rfl, ?_, ?_⟩
    · exact completed_chunkContent env req _ _
    · intro m' ok' hmem hrole
      simp only [List.mem_append, List.mem_cons, List.mem_singleton, List.not_mem_nil,
        or_false] at hmem
      rcases hmem with h | h | h
      · have hp := (streamCalls_plain env db req _ h).1
        simp [DbCall.savesAssistant, hrole] at hp
      · injection h with h1 h2
      · cases h

/-- Witness for C1: a first turn whose body carries `He`, noise, and a final `y!`. -/
theorem chunk_content_eq_assistant_content_witness :
    (Handler.chatRequest sampleRequest
        [Handler.userMessage (sampleEnv sampleBody) sampleRequest], none) ∈
      (Handler.ChatStream (sampleEnv sampleBody) emptyDB (some sampleRequest)).chatCalls ∧
    ∃ m ok, DbCall.createMessage m ok ∈
        (Handler.ChatStream (sampleEnv sampleBody) emptyDB (some sampleRequest)).dbCalls ∧
      m.role = ascii "assistant" ∧
      (Handler.ChatStream (sampleEnv sampleBody) emptyDB (some sampleRequest)).writer.chunkContent
        = m.content ∧
      ∀ m' ok', DbCall.createMessage m' ok' ∈
          (Handler.ChatStream (sampleEnv sampleBody) emptyDB (some sampleRequest)).dbCalls →
        m'.role = ascii "assistant" → m' = m :=
  ⟨by decide,
   chunk_content_eq_assistant_content (sampleEnv sampleBody) emptyDB (some sampleRequest)
     (Handler.chatRequest sampleRequest
        [Handler.userMessage (sampleEnv sampleBody) sampleRequest]) (by decide)⟩

/-- C2: when the inference client returns an error (after any number of chunks, a
non-success status on first contact included), no assistant message is stored or handed to
storage, the conversation is not touched, no title goroutine is started, and the `error`
event carrying that error is the last event written and the only `error` event. -/
theorem inference_error_aborts_turn (env : Env) (db : DB) (body : Option ChatAPIRequest)
    (creq : ChatRequest) (e : ClientError)
    (herr : (creq, some e) ∈ (Handler.ChatStream env db body).chatCalls) :
    (Handler.ChatStream env db body).db.assistantMessages = db.assistantMessages ∧
    (∀ c ∈ (Handler.ChatStream env db body).dbCalls,
      c.savesAssistant = false ∧ c.isTouch = false) ∧
    (Handler.ChatStream env db body).titleJob = none ∧
    ∃ pre, (Handler.ChatStream env db body).writer.events = pre ++ [Event.error e] ∧
      ∀ x ∈ pre, x.isError = false := by
  have hend := ChatStream_end env db body
  generalize Handler.ChatStream env db body = out at hend herr
  cases hend with
  | badBody => simp at herr
  | invalid req h => simp at herr
  | noConversation req hmsg hmod => simp at herr
  | notSaved req hmsg hmod hfail => simp at herr
  | noFlusher req hmsg hmod hsaved hfl => simp at herr
  | completed req hmsg hmod hsaved hfl => simp at herr
  | failed req hmsg hmod hsaved hfl e' =>
    simp only [List.mem_singleton, Prod.mk.injEq, Option.some.injEq] at herr
    obtain ⟨-, rfl⟩ := herr
    refine ⟨savedDB_assistantMessages env db req hsaved, ?_, rfl, ?_⟩
    · intro c hc
      exact ⟨(streamCalls_plain env db req c hc).1, (streamCalls_plain env db req c hc).2.1⟩
    · refine ⟨Event.init (Handler.resolvedID env req) ::
        (streamChunks env.upstream env.unmarshal
          (Handler.chatRequest req ((Handler.loaded env db req).getD []))).map
          (fun c => Event.chunk (chunkOf c)), ?_, ?_⟩
      · rw [fprintf_events, finalState_events]
      · intro x hx
        simp only [List.mem_cons, List.mem_map] at hx
        rcases hx with h | ⟨c, -, h⟩ <;> subst h <;> rfl

/-- Witness for C2: the scanner reports a read error after one chunk was relayed. -/
theorem inference_error_aborts_turn_witness :
    (Handler.chatRequest sampleRequest
        [Handler.userMessage (sampleEnv brokenBody) sampleRequest],
      some (ClientError.scan (ascii "unexpected EOF"))) ∈
      (Handler.ChatStream (sampleEnv brokenBody) emptyDB (some sampleRequest)).chatCalls ∧
    ((Handler.ChatStream (sampleEnv brokenBody) emptyDB (some sampleRequest)).db.assistantMessages
        = emptyDB.assistantMessages ∧
    (∀ c ∈ (Handler.ChatStream (sampleEnv brokenBody) emptyDB (some sampleRequest)).dbCalls,
      c.savesAssistant = false ∧ c.isTouch = false) ∧
    (Handler.ChatStream (sampleEnv brokenBody) emptyDB (some sampleRequest)).titleJob = none ∧
    ∃ pre, (Handler.ChatStream (sampleEnv brokenBody) emptyDB
          (some sampleRequest)).writer.events =
        pre ++ [Event.error (ClientError.scan (ascii "unexpected EOF"))] ∧
      ∀ x ∈ pre, x.isError = false) :=
  ⟨by decide,
   inference_error_aborts_turn (sampleEnv brokenBody) emptyDB (some sampleRequest)
     (Handler.chatRequest sampleRequest
        [Handler.userMessage (sampleEnv brokenBody) sampleRequest])
     (ClientError.scan (ascii "unexpected EOF")) (by decide)⟩

/-- The scenario of a status 500 on first contact: the stream opens with the `init` event,
the only other event is the `error` event carrying status and body, and the user message is
the only message stored. -/
theorem status_500_on_first_contact :
    (Handler.ChatStream (sampleEnv unavailableReply) emptyDB (some sampleRequest)).writer.events =
      [Event.init (ascii "c-new"),
       Event.error (ClientError.status 500 (ascii "overloaded"))] ∧
    (Handler.ChatStream (sampleEnv unavailableReply) emptyDB (some sampleRequest)).db.messages.map
      (fun m => (m.role, m.content)) = [(ascii "user", ascii "hello")] ∧
    (Handler.ChatStream (sampleEnv unavailableReply) emptyDB (some sampleRequest)).titleJob =
      none := by
  decide

/-- C3: a request whose message text or model name is empty is answered with status 400 and
nothing else happens: the database is unchanged, no storage call is made, no event is
written, the inference client is not called and no title goroutine is started. -/
theorem empty_message_or_model_rejected (env : Env) (db : DB) (req : ChatAPIRequest)
    (h : req.message = [] ∨ req.model = []) :
    Handler.ChatStream env db (some req) =
      { db := db, reply := some (400, "Message and model are required"), writer := [],
        chatCalls := [], dbCalls := [], titleJob := none } := by
  unfold Handler.ChatStream
  simp only [h, if_true]

/-- Witness for C3: a request with empty message text. -/
theorem empty_message_or_model_rejected_witness :
    (emptyMessageRequest.message = [] ∨ emptyMessageRequest.model = []) ∧
    Handler.ChatStream (sampleEnv sampleBody) emptyDB (some emptyMessageRequest) =
      { db := emptyDB, reply := some (400, "Message and model are required"), writer := [],
        chatCalls := [], dbCalls := [], titleJob := none } :=
  ⟨by decide,
   empty_message_or_model_rejected (sampleEnv sampleBody) emptyDB emptyMessageRequest
     (by decide)⟩

/-- C4, as stated, fails: the upstream body ends after one chunk without the done flag, the
client returns without error, the assistant message is stored, and the only (hence final)
`chunk` event carries `done = false`. -/
theorem final_chunk_done_counterexample :
    (Handler.ChatStream (sampleEnv unfinishedBody) emptyDB (some sampleRequest)).chatCalls =
      [(Handler.chatRequest sampleRequest
          [Handler.userMessage (sampleEnv unfinishedBody) sampleRequest], none)] ∧
    (Handler.ChatStream (sampleEnv unfinishedBody) emptyDB
        (some sampleRequest)).db.assistantMessages.map (fun m => m.content) = [ascii "He"] ∧
    (Handler.ChatStream (sampleEnv unfinishedBody) emptyDB
        (some sampleRequest)).writer.chunks.map (fun c => c.done) = [false] := by
  decide

theorem chunkOf_done (r : ChatResponse) : (chunkOf r).done = r.done := rfl

theorem map_chunkOf_done_last (cs : List ChatResponse) (pre post : List ChunkEvent)
    (c : ChunkEvent)
    (hlast : ∀ pre' post' r, cs = pre' ++ r :: post' → r.done = true → post' = [])
    (h : cs.map chunkOf = pre ++ c :: post) (hc : c.done = true) : post = [] := by
  obtain ⟨pre', rest, hcs, -, hrest⟩ := List.map_eq_append_iff.mp h
  obtain ⟨r, post', hr, hrc, hpost⟩ := List.map_eq_cons_iff.mp hrest
  subst hcs hr
  have hdone : r.done = true := by rw [← chunkOf_done, hrc]; exact hc
  have := hlast pre' post' r rfl hdone
  subst this
  simpa using hpost.symm

/-- C4 (amended): in a turn whose inference call returns without error, every `chunk` event
that is followed by another `chunk` event carries `done = false`, and the final `chunk`
event carries `done = true` exactly when the client delivered a chunk with the done flag
set. -/
theorem only_final_chunk_done (env : Env) (db : DB) (body : Option ChatAPIRequest)
    (creq : ChatRequest)
    (hdone : (creq, none) ∈ (Handler.ChatStream env db body).chatCalls) :
    (∀ pre c post, (Handler.ChatStream env db body).writer.chunks = pre ++ c :: post →
      post ≠ [] → c.done = false) ∧
    ((∃ c, (Handler.ChatStream env db body).writer.chunks.getLast? = some c ∧ c.done = true) ↔
      ∃ r ∈ streamChunks env.upstream env.unmarshal creq, r.done = true) := by
  have hend := ChatStream_end env db body
  generalize Handler.ChatStream env db body = out at hend hdone
  cases hend with
  | badBody => simp at hdone
  | invalid req h => simp at hdone
  | noConversation req hmsg hmod => simp at hdone
  | notSaved req hmsg hmod hfail => simp at hdone
  | noFlusher req hmsg hmod hsaved hfl => simp at hdone
  | failed req hmsg hmod hsaved hfl e => simp at hdone
  | completed req hmsg hmod hsaved hfl =>
    simp only [List.mem_singleton, Prod.mk.injEq, and_true] at hdone
    subst hdone
    have hchunks := chunks_of_events _ _ _
      (finalState_events env req (Handler.resolvedID env req)
        ((Handler.loaded env db req).getD []))
    simp only [hchunks]
    have hlast := streamChunks_done_last env.upstream env.unmarshal
      (Handler.chatRequest req ((Handler.loaded env db req).getD []))
    constructor
    · intro pre c post hsplit hpost
      cases hc : c.done with
      | false => rfl
      | true => exact absurd (map_chunkOf_done_last _ pre post c hlast hsplit hc) hpost
    · constructor
      · rintro ⟨c, hc, hcd⟩
        have hmem := List.mem_of_getLast?_eq_some hc
        obtain ⟨r, hr, rfl⟩ := List.mem_map.mp hmem
        exact ⟨r, hr, hcd⟩
      · rintro ⟨r, hr, hrd⟩
        obtain ⟨pre, post, hsplit⟩ := List.append_of_mem hr
        have hp := hlast pre post r hsplit hrd
        subst hp
        refine ⟨chunkOf r, ?_, hrd⟩
        rw [hsplit]
        simp

/-- Witness for C4 (amended): the turn over the three-line sample body. -/
theorem only_final_chunk_done_witness :
    (Handler.chatRequest sampleRequest
        [Handler.userMessage (sampleEnv sampleBody) sampleRequest], none) ∈
      (Handler.ChatStream (sampleEnv sampleBody) emptyDB (some sampleRequest)).chatCalls ∧
    ((∀ pre c post,
        (Handler.ChatStream (sampleEnv sampleBody) emptyDB (some sampleRequest)).writer.chunks =
          pre ++ c :: post → post ≠ [] → c.done = false) ∧
     ((∃ c, (Handler.ChatStream (sampleEnv sampleBody) emptyDB
          (some sampleRequest)).writer.chunks.getLast? = some c ∧ c.done = true) ↔
      ∃ r ∈ streamChunks (sampleEnv sampleBody).upstream (sampleEnv sampleBody).unmarshal
          (Handler.chatRequest sampleRequest
            [Handler.userMessage (sampleEnv sampleBody) sampleRequest]), r.done = true)) :=
  ⟨by decide,
   only_final_chunk_done (sampleEnv sampleBody) emptyDB (some sampleRequest)
     (Handler.chatRequest sampleRequest
        [Handler.userMessage (sampleEnv sampleBody) sampleRequest]) (by decide)⟩

/-- C5, as stated, fails: for a final chunk with `eval_count = 2^63 - 1` and
`prompt_eval_count = 1` the sum of the two counters is `2^63`, while the emitted
`total_tokens` (and the stored token count) is the wrapped `int` value `-2^63`. -/
theorem total_tokens_sum_counterexample :
    (streamChunks hugeEnv.upstream hugeEnv.unmarshal
        (Handler.chatRequest sampleRequest
          [Handler.userMessage hugeEnv sampleRequest])).map
      (fun r => (r.done, r.evalCount + r.promptEvalCount)) = [(true, 9223372036854775808)] ∧
    (Handler.ChatStream hugeEnv emptyDB (some sampleRequest)).writer.chunks.map
      (fun c => c.totalTokens) = [some (-9223372036854775808)] ∧
    (Handler.ChatStream hugeEnv emptyDB (some sampleRequest)).db.assistantMessages.map
      (fun m => m.tokensUsed) = [-9223372036854775808] := by
  decide

theorem wrapInt64_of_inRange (x : Int) (hlo : -(2 ^ 63) ≤ x) (hhi : x < 2 ^ 63) :
    wrapInt64 x = x := by
  unfold wrapInt64
  omega

/-- C5 (amended): the `chunk` events correspond one to one, in order, to the chunks the
client delivered; an event carries `total_tokens`, `eval_count` and `duration` exactly when
its chunk has the done flag set, and then `total_tokens` is the Go `int` sum (wrapping
modulo 2^64) of `eval_count` and `prompt_eval_count`, equal to their exact sum whenever that
lies in the `int` range, and it is the token count of every assistant message handed to
storage in the turn. -/
theorem chunk_counters_iff_done (env : Env) (db : DB) (body : Option ChatAPIRequest)
    (creq : ChatRequest) (oerr : Option ClientError)
    (hcall : (creq, oerr) ∈ (Handler.ChatStream env db body).chatCalls) :
    List.Forall₂
      (fun (r : ChatResponse) (c : ChunkEvent) =>
        c.content = r.message.content ∧ c.done = r.done ∧
        c.totalTokens.isSome = r.done ∧ c.evalCount.isSome = r.done ∧
        c.duration.isSome = r.done ∧
        (r.done = true →
          c.totalTokens = some (wrapInt64 (r.evalCount + r.promptEvalCount)) ∧
          c.evalCount = some r.evalCount ∧
          c.duration = some ⟨r.totalDuration⟩ ∧
          (-(2 ^ 63) ≤ r.evalCount + r.promptEvalCount →
            r.evalCount + r.promptEvalCount < 2 ^ 63 →
            c.totalTokens = some (r.evalCount + r.promptEvalCount)) ∧
          ∀ m ok, DbCall.createMessage m ok ∈ (Handler.ChatStream env db body).dbCalls →
            m.role = ascii "assistant" → some m.tokensUsed = c.totalTokens))
      (streamChunks env.upstream env.unmarshal creq)
      (Handler.ChatStream env db body).writer.chunks := by
  have fields : ∀ r : ChatResponse,
      (chunkOf r).content = r.message.content ∧ (chunkOf r).done = r.done ∧
      (chunkOf r).totalTokens.isSome = r.done ∧ (chunkOf r).evalCount.isSome = r.done ∧
      (chunkOf r).duration.isSome = r.done := by
    intro r
    cases hd : r.done <;> simp [chunkOf, hd]
  have counters : ∀ r : ChatResponse, r.done = true →
      (chunkOf r).totalTokens = some (wrapInt64 (r.evalCount + r.promptEvalCount)) ∧
      (chunkOf r).evalCount = some r.evalCount ∧
      (chunkOf r).duration = some ⟨r.totalDuration⟩ ∧
      (-(2 ^ 63) ≤ r.evalCount + r.promptEvalCount →
        r.evalCount + r.promptEvalCount < 2 ^ 63 →
        (chunkOf r).totalTokens = some (r.evalCount + r.promptEvalCount)) := by
    intro r hd
    refine ⟨by simp [chunkOf, hd, addInt], by simp [chunkOf, hd], by simp [chunkOf, hd], ?_⟩
    intro hlo hhi
    simp [chunkOf, hd, addInt, wrapInt64_of_inRange _ hlo hhi]
  have hend := ChatStream_end env db body
  generalize Handler.ChatStream env db body = out at hend hcall
  cases hend with
  | badBody => simp at hcall
  | invalid req h => simp at hcall
  | noConversation req hmsg hmod => simp at hcall
  | notSaved req hmsg hmod hfail => simp at hcall
  | noFlusher req hmsg hmod hsaved hfl => simp at hcall
  | failed req hmsg hmod hsaved hfl e =>
    simp only [List.mem_singleton, Prod.mk.injEq] at hcall
    obtain ⟨rfl, -⟩ := hcall
    have hchunks := chunks_of_events_error _ _ _ e
      ((fprintf_events env _ (Event.error e)).trans
        (congrArg (fun l => l ++ [Event.error e])
          (finalState_events env req (Handler.resolvedID env req)
            ((Handler.loaded env db req).getD []))))
    simp only [hchunks]
    rw [List.forall₂_map_right_iff, List.forall₂_same]
    intro r _
    obtain ⟨h1, h2, h3, h4, h5⟩ := fields r
    refine ⟨h1, h2, h3, h4, h5, ?_⟩
    intro hd
    obtain ⟨c1, c2, c3, c4⟩ := counters r hd
    refine ⟨c1, c2, c3, c4, ?_⟩
    intro m ok hmem hrole
    have hp := (streamCalls_plain env db req _ hmem).1
    simp [DbCall.savesAssistant, hrole] at hp
  | completed req hmsg hmod hsaved hfl =>
    simp only [List.mem_singleton, Prod.mk.injEq] at hcall
    obtain ⟨rfl, -⟩ := hcall
    have hchunks := chunks_of_events _ _ _
      (finalState_events env req (Handler.resolvedID env req)
        ((Handler.loaded env db req).getD []))
    simp only [hchunks]
    rw [List.forall₂_map_right_iff, List.forall₂_same]
    intro r hr
    obtain ⟨h1, h2, h3, h4, h5⟩ := fields r
    refine ⟨h1, h2, h3, h4, h5, ?_⟩
    intro hd
    obtain ⟨c1, c2, c3, c4⟩ := counters r hd
    refine ⟨c1, c2, c3, c4, ?_⟩
    intro m ok hmem hrole
    simp only [List.mem_append, List.mem_cons, List.mem_singleton, List.not_mem_nil,
      or_false] at hmem
    rcases hmem with h | h | h
    · have hp := (streamCalls_plain env db req _ h).1
      simp [DbCall.savesAssistant, hrole] at hp
    · injection h with hm _
      subst hm
      rw [c1]
      have ht := finalState_totalTokens env req (Handler.resolvedID env req)
        ((Handler.loaded env db req).getD []) r hr hd
      simp [Handler.assistantMessage, ht, addInt]
    · cases h

/-- Witness for C5 (amended): the turn over the three-line sample body. -/
theorem chunk_counters_iff_done_witness :
    (Handler.chatRequest sampleRequest
        [Handler.userMessage (sampleEnv sampleBody) sampleRequest], none) ∈
      (Handler.ChatStream (sampleEnv sampleBody) emptyDB (some sampleRequest)).chatCalls ∧
    List.Forall₂
      (fun (r : ChatResponse) (c : ChunkEvent) =>
        c.content = r.message.content ∧ c.done = r.done ∧
        c.totalTokens.isSome = r.done ∧ c.evalCount.isSome = r.done ∧
        c.duration.isSome = r.done ∧
        (r.done = true →
          c.totalTokens = some (wrapInt64 (r.evalCount + r.promptEvalCount)) ∧
          c.evalCount = some r.evalCount ∧
          c.duration = some ⟨r.totalDuration⟩ ∧
          (-(2 ^ 63) ≤ r.evalCount + r.promptEvalCount →
            r.evalCount + r.promptEvalCount < 2 ^ 63 →
            c.totalTokens = some (r.evalCount + r.promptEvalCount)) ∧
          ∀ m ok, DbCall.createMessage m ok ∈
              (Handler.ChatStream (sampleEnv sampleBody) emptyDB (some sampleRequest)).dbCalls →
            m.role = ascii "assistant" → some m.tokensUsed = c.totalTokens))
      (streamChunks (sampleEnv sampleBody).upstream (sampleEnv sampleBody).unmarshal
        (Handler.chatRequest sampleRequest
          [Handler.userMessage (sampleEnv sampleBody) sampleRequest]))
      (Handler.ChatStream (sampleEnv sampleBody) emptyDB (some sampleRequest)).writer.chunks :=
  ⟨by decide,
   chunk_counters_iff_done (sampleEnv sampleBody) emptyDB (some sampleRequest)
     (Handler.chatRequest sampleRequest
        [Handler.userMessage (sampleEnv sampleBody) sampleRequest]) none (by decide)⟩

theorem scanLines_lines (lines : List GoString) :
    (scanLines lines).1.map (fun t => t.line) =
      (lines.takeWhile (fun l => decide (l.length < maxTokenSize))).map dropCR := by
  induction lines with
  | nil => simp [scanLines]
  | cons l rest ih =>
    unfold scanLines
    by_cases h : maxTokenSize ≤ l.length
    · have h' : ¬ l.length < maxTokenSize := Nat.not_lt.mpr h
      simp [h, List.takeWhile_cons, h']
    · have h' : l.length < maxTokenSize := Nat.lt_of_not_le h
      simp [h, List.takeWhile_cons, h', ih]

theorem scanLines_errAfter (lines : List GoString) (t : ScanToken)
    (ht : t ∈ (scanLines lines).1) : t.errAfter = none := by
  induction lines with
  | nil => simp [scanLines] at ht
  | cons l rest ih =>
    unfold scanLines at ht
    by_cases h : maxTokenSize ≤ l.length
    · simp [h] at ht
    · simp only [h, if_false, List.mem_cons] at ht
      rcases ht with h1 | h1
      · rw [h1]
      · exact ih h1

theorem scanLines_error (lines : List GoString) (msg : GoString)
    (h : (scanLines lines).2 = some msg) :
    msg = errTooLong ∧ ∃ l ∈ lines, maxTokenSize ≤ l.length := by
  induction lines with
  | nil => simp [scanLines] at h
  | cons l rest ih =>
    unfold scanLines at h
    by_cases hl : maxTokenSize ≤ l.length
    · simp only [hl, if_true, Option.some.injEq] at h
      exact ⟨h.symm, l, List.mem_cons_self _ _, hl⟩
    · simp only [hl, if_false] at h
      obtain ⟨h1, l', hl', h2⟩ := ih h
      exact ⟨h1, l', List.mem_cons_of_mem _ hl', h2⟩

theorem longLine_length : longLine.length = maxTokenSize + 1 := by
  unfold longLine
  rw [List.length_cons, List.length_replicate]

theorem scanLines_longLine (rest : List GoString) :
    scanLines (longLine :: rest) = ([], some errTooLong) := by
  have h : maxTokenSize ≤ longLine.length := by
    rw [longLine_length]
    exact Nat.le_succ maxTokenSize
  rw [scanLines, if_pos h]

/-- C6, as stated, fails in two ways.  With the success status 201 and the lines of the
sample body, the client returns the status error and never runs the callback, while the
lines decode to the chunks `He` and `y!`.  With status 200 and a first line of one byte more
than the scanner's buffer, a non-empty line that decodes, the scan ends with `ErrTooLong`
before any chunk is delivered. -/
theorem chatStream_success_status_counterexample :
    (Client.ChatStream (fun _ => createdReply) sampleUnmarshal
        (Handler.chatRequest sampleRequest []) (fun s c => (recordContent s c, none)) [] =
      ([], some (ClientError.status 201 (ascii "created"))) ∧
     (throughDone (decodedLines sampleUnmarshal sampleTokens)).map
        (fun c => c.message.content) = [ascii "He", ascii "y!"]) ∧
    (Client.ChatStream (fun _ => oversizedReply) sampleUnmarshal
        (Handler.chatRequest sampleRequest []) (fun s c => (recordContent s c, none)) [] =
      ([], some (ClientError.scan errTooLong)) ∧
     longLine ≠ [] ∧ (sampleUnmarshal longLine).isSome = true) := by
  refine ⟨by decide, ?_, List.cons_ne_nil _ _, rfl⟩
  unfold Client.ChatStream oversizedReply
  simp only [scanLines_longLine, ne_eq, not_true_eq_false, if_false]
  rfl

/-- C6 (amended): a response whose status is not 200 (another 2xx status included) makes
the client return the status error without running the callback.  For a response with
status 200, the callback (when it never fails) is run on exactly the non-empty lines yielded
by the scanner that decode, in arrival order, up to and including the first chunk with the
done flag set; lines that do not decode are skipped, and the error returned is nil or an
error of the scanner, never one caused by a line that failed to decode.  When the body is
read to its end, the scanner yields its lines (without a trailing carriage return) up to
the first line that does not fit the buffer of 1 MiB, and the only error is `ErrTooLong`
for such a line. -/
theorem chatStream_delivers_decoded_lines {σ : Type} (upstream : ChatRequest → StreamReply)
    (unmarshal : GoString → Option ChatResponse) (req : ChatRequest)
    (f : σ → ChatResponse → σ) (s : σ) (status : Nat) (body : GoString)
    (tokens : List ScanToken) (finalErr : Option GoString)
    (hresp : upstream { req with stream := true } =
      StreamReply.response status body tokens finalErr) :
    (status ≠ 200 →
      Client.ChatStream upstream unmarshal req (fun s c => (f s c, none)) s =
        (s, some (ClientError.status status body))) ∧
    (status = 200 →
      ((Client.ChatStream upstream unmarshal req (fun s c => (f s c, none)) s).1 =
          (throughDone (((tokens.map (fun t => t.line)).filter (fun l => l ≠ [])).filterMap
            unmarshal)).foldl f s ∧
        ((Client.ChatStream upstream unmarshal req (fun s c => (f s c, none)) s).2 = none ∨
          ∃ msg, (Client.ChatStream upstream unmarshal req (fun s c => (f s c, none)) s).2 =
              some (ClientError.scan msg) ∧
            (finalErr = some msg ∨ ∃ t ∈ tokens, t.errAfter = some msg))) ∧
      ∀ lines, tokens = (scanLines lines).1 → finalErr = (scanLines lines).2 →
        (Client.ChatStream upstream unmarshal req (fun s c => (f s c, none)) s).1 =
          (throughDone
            ((((lines.takeWhile (fun l => decide (l.length < maxTokenSize))).map dropCR).filter
              (fun l => l ≠ [])).filterMap unmarshal)).foldl f s ∧
        ((Client.ChatStream upstream unmarshal req (fun s c => (f s c, none)) s).2 = none ∨
          ((Client.ChatStream upstream unmarshal req (fun s c => (f s c, none)) s).2 =
              some (ClientError.scan errTooLong) ∧
            ∃ l ∈ lines, maxTokenSize ≤ l.length))) := by
  have hf : ∀ (s : σ) (c : ChatResponse), ((fun s c => (f s c, none)) s c :
      σ × Option GoString).2 = none := fun _ _ => rfl
  constructor
  · intro hs
    unfold Client.ChatStream
    rw [hresp]
    simp only [hs, ne_eq, not_false_eq_true, if_true]
  · intro hs
    subst hs
    have hrun : Client.ChatStream upstream unmarshal req (fun s c => (f s c, none)) s =
        Client.scanLoop unmarshal (fun s c => (f s c, none)) tokens finalErr s := by
      unfold Client.ChatStream
      rw [hresp]
      simp only [ne_eq, not_true_eq_false, if_false]
    have hstate : (Client.scanLoop unmarshal (fun s c => (f s c, none)) tokens finalErr s).1 =
        (throughDone (((tokens.map (fun t => t.line)).filter (fun l => l ≠ [])).filterMap
          unmarshal)).foldl f s := by
      rw [scanLoop_state unmarshal _ hf]
      rfl
    have herr := scanLoop_error unmarshal _ hf tokens finalErr s
    rw [hrun]
    refine ⟨⟨hstate, herr⟩, ?_⟩
    intro lines htok hfin
    constructor
    · rw [hstate, htok, scanLines_lines]
    · rcases herr with h | ⟨msg, hmsg, hsrc⟩
      · exact Or.inl h
      · right
        rcases hsrc with h | ⟨t, ht, he⟩
        · rw [hfin] at h
          obtain ⟨h1, h2⟩ := scanLines_error lines msg h
          rw [h1] at hmsg
          exact ⟨hmsg, h2⟩
        · rw [htok] at ht
          rw [scanLines_errAfter lines t ht] at he
          cases he

/-- Witness for C6 (amended): the callback that records the chunks it is given, on the
sample body. -/
theorem chatStream_delivers_decoded_lines_witness :
    (fun _ => sampleBody : ChatRequest → StreamReply)
        { Handler.chatRequest sampleRequest [] with stream := true } =
      StreamReply.response 200 [] sampleTokens none ∧
    ((200 ≠ 200 →
      Client.ChatStream (fun _ => sampleBody) sampleUnmarshal
          (Handler.chatRequest sampleRequest []) (fun s c => (recordContent s c, none)) [] =
        ([], some (ClientError.status 200 []))) ∧
    (200 = 200 →
      ((Client.ChatStream (fun _ => sampleBody) sampleUnmarshal
            (Handler.chatRequest sampleRequest []) (fun s c => (recordContent s c, none)) []).1 =
          (throughDone (((sampleTokens.map (fun t => t.line)).filter
            (fun l => l ≠ [])).filterMap sampleUnmarshal)).foldl recordContent [] ∧
        ((Client.ChatStream (fun _ => sampleBody) sampleUnmarshal
            (Handler.chatRequest sampleRequest []) (fun s c => (recordContent s c, none)) []).2 =
            none ∨
          ∃ msg, (Client.ChatStream (fun _ => sampleBody) sampleUnmarshal
              (Handler.chatRequest sampleRequest [])
              (fun s c => (recordContent s c, none)) []).2 = some (ClientError.scan msg) ∧
            (none = some msg ∨ ∃ t ∈ sampleTokens, t.errAfter = some msg))) ∧
      ∀ lines, sampleTokens = (scanLines lines).1 → none = (scanLines lines).2 →
        (Client.ChatStream (fun _ => sampleBody) sampleUnmarshal
            (Handler.chatRequest sampleRequest []) (fun s c => (recordContent s c, none)) []).1 =
          (throughDone
            ((((lines.takeWhile (fun l => decide (l.length < maxTokenSize))).map dropCR).filter
              (fun l => l ≠ [])).filterMap sampleUnmarshal)).foldl recordContent [] ∧
        ((Client.ChatStream (fun _ => sampleBody) sampleUnmarshal
            (Handler.chatRequest sampleRequest []) (fun s c => (recordContent s c, none)) []).2 =
            none ∨
          ((Client.ChatStream (fun _ => sampleBody) sampleUnmarshal
              (Handler.chatRequest sampleRequest [])
              (fun s c => (recordContent s c, none)) []).2 =
              some (ClientError.scan errTooLong) ∧
            ∃ l ∈ lines, maxTokenSize ≤ l.length)))) :=
  ⟨rfl,
   chatStream_delivers_decoded_lines (fun _ => sampleBody) sampleUnmarshal
     (Handler.chatRequest sampleRequest []) recordContent [] 200 [] sampleTokens none rfl⟩

/-- The sample body, read by the client with the recording callback: the chunks `He` and
`y!` are delivered, the malformed and the empty line are skipped, the line after the final
chunk is not read, and no error is returned. -/
theorem chatStream_sample_run :
    Client.ChatStream (fun _ => sampleBody) sampleUnmarshal
        (Handler.chatRequest sampleRequest []) (fun s c => (recordContent s c, none)) [] =
      ([ascii "He", ascii "y!"], none) ∧
    sampleTokens = (scanLines [0 :: ascii "He", [], [9, 9], 1 :: ascii "y!",
      0 :: ascii "never read"]).1 := by
  decide

/-- C7, as stated, fails: for the reply of eighty spaces followed by `Hi`, trimming first
leaves the non-empty text `Hi`, which would be written as the title, while the code
truncates to the first 80 bytes first, trims the result to the empty string and writes no
title. -/
theorem title_trim_order_counterexample :
    titleTrimmedThenTruncated asciiTrimSpace paddedReply = some (ascii "Hi") ∧
    writtenTitles (titleTask (sampleTitleEnv paddedReply) sampleJob sampleTitleDB).2 = [] ∧
    (titleTask (sampleTitleEnv paddedReply) sampleJob sampleTitleDB).1 = sampleTitleDB := by
  decide

/-- C7 (amended): for every successful title reply, the text is first cut to its first 80
bytes and then trimmed of surrounding white space; if the result is non-empty exactly that
text is handed to `UpdateConversationTitle` for the conversation of the turn (and becomes its
title when the update succeeds), and if it is empty no storage call is made. -/
theorem title_truncated_then_trimmed (tenv : TitleEnv) (job : TitleJob) (db : DB)
    (resp : ChatResponse)
    (hreply : Client.Chat tenv.upstream tenv.decodeBody
      (titleRequest job.model job.message) = Except.ok resp) :
    (tenv.trimSpace (resp.message.content.take 80) ≠ [] →
      titleTask tenv job db =
        ((db.UpdateConversationTitle tenv.failUpdate tenv.now job.conversationID
            (tenv.trimSpace (resp.message.content.take 80))).1,
         [DbCall.updateConversationTitle job.conversationID
            (tenv.trimSpace (resp.message.content.take 80))
            (db.UpdateConversationTitle tenv.failUpdate tenv.now job.conversationID
              (tenv.trimSpace (resp.message.content.take 80))).2]) ∧
      (tenv.failUpdate = false →
        ∀ c ∈ (titleTask tenv job db).1.conversations, c.id = job.conversationID →
          c.title = tenv.trimSpace (resp.message.content.take 80))) ∧
    (tenv.trimSpace (resp.message.content.take 80) = [] →
      titleTask tenv job db = (db, [])) := by
  have hgen : Client.GenerateTitle tenv.upstream tenv.decodeBody job.model job.message =
      Except.ok (resp.message.content.take 80) := by
    unfold Client.GenerateTitle
    rw [hreply]
    by_cases hlen : resp.message.content.length > 80
    · simp [hlen]
    · have hle : resp.message.content.length ≤ 80 := Nat.le_of_not_gt hlen
      simp [hlen, List.take_of_length_le hle]
  have htask : titleTask tenv job db =
      if tenv.trimSpace (resp.message.content.take 80) ≠ [] then
        ((db.UpdateConversationTitle tenv.failUpdate tenv.now job.conversationID
            (tenv.trimSpace (resp.message.content.take 80))).1,
         [DbCall.updateConversationTitle job.conversationID
            (tenv.trimSpace (resp.message.content.take 80))
            (db.UpdateConversationTitle tenv.failUpdate tenv.now job.conversationID
              (tenv.trimSpace (resp.message.content.take 80))).2])
      else (db, []) := by
    unfold titleTask
    rw [hgen]
  constructor
  · intro hne
    rw [htask, if_pos hne]
    refine ⟨rfl, ?_⟩
    intro hok c hc hid
    simp only [DB.UpdateConversationTitle, hok, Bool.false_eq_true, if_false,
      List.mem_map] at hc
    obtain ⟨c0, -, hc0⟩ := hc
    by_cases h0 : (c0.id == job.conversationID) = true
    · rw [if_pos h0] at hc0
      rw [← hc0]
    · rw [if_neg h0] at hc0
      subst hc0
      exact absurd (by simpa using hid) h0
  · intro he
    rw [htask, if_neg (by simpa using he)]

/-- Witness for C7 (amended): the reply `  Hi ` renames the conversation to `Hi`. -/
theorem title_truncated_then_trimmed_witness :
    Client.Chat (sampleTitleEnv (ascii "  Hi ")).upstream
        (sampleTitleEnv (ascii "  Hi ")).decodeBody
        (titleRequest sampleJob.model sampleJob.message) =
      Except.ok { model := ascii "m1", message := ⟨ascii "assistant", ascii "  Hi "⟩,
                  done := true, totalDuration := 0, promptEvalCount := 0, evalCount := 0 } ∧
    ((asciiTrimSpace ((ascii "  Hi ").take 80) ≠ [] →
      titleTask (sampleTitleEnv (ascii "  Hi ")) sampleJob sampleTitleDB =
        ((sampleTitleDB.UpdateConversationTitle false 20 sampleJob.conversationID
            (asciiTrimSpace ((ascii "  Hi ").take 80))).1,
         [DbCall.updateConversationTitle sampleJob.conversationID
            (asciiTrimSpace ((ascii "  Hi ").take 80))
            (sampleTitleDB.UpdateConversationTitle false 20 sampleJob.conversationID
              (asciiTrimSpace ((ascii "  Hi ").take 80))).2]) ∧
      (false = false →
        ∀ c ∈ (titleTask (sampleTitleEnv (ascii "  Hi ")) sampleJob sampleTitleDB).1.conversations,
          c.id = sampleJob.conversationID →
          c.title = asciiTrimSpace ((ascii "  Hi ").take 80))) ∧
     (asciiTrimSpace ((ascii "  Hi ").take 80) = [] →
      titleTask (sampleTitleEnv (ascii "  Hi ")) sampleJob sampleTitleDB =
        (sampleTitleDB, []))) :=
  ⟨rfl,
   title_truncated_then_trimmed (sampleTitleEnv (ascii "  Hi ")) sampleJob sampleTitleDB
     { model := ascii "m1", message := ⟨ascii "assistant", ascii "  Hi "⟩,
       done := true, totalDuration := 0, promptEvalCount := 0, evalCount := 0 } rfl⟩

/-- C8 at its failing input: conversation `c1` holds three messages once the inbound message
is saved, the read of the history fails, and the handler still starts the title goroutine
for `c1`. -/
theorem title_job_after_failed_read :
    (Handler.ChatStream readFaultEnv busyDB (some followUpRequest)).dbCalls.take 2 =
      [DbCall.createMessage (Handler.userMessage readFaultEnv followUpRequest) true,
       DbCall.getMessages (ascii "c1") false] ∧
    ((Handler.ChatStream readFaultEnv busyDB (some followUpRequest)).db.GetMessages false
        none sampleStored (ascii "c1")).map (fun h => h.map (fun m => m.id)) =
      some [ascii "u0", ascii "a0", ascii "u1", ascii "a1"] ∧
    ((Handler.savedDB readFaultEnv busyDB followUpRequest).GetMessages false
        none sampleStored (ascii "c1")).map List.length = some 3 ∧
    (Handler.ChatStream readFaultEnv busyDB (some followUpRequest)).titleJob =
      some { model := ascii "m1", message := ascii "more", conversationID := ascii "c1" } := by
  decide

/-- When the read of the history succeeds and reaches the last row, a title goroutine is
started only by a turn whose inference call returned without error and whose stored history,
after the inbound message was saved, is exactly that message. -/
theorem title_job_of_loaded_history (env : Env) (db : DB) (body : Option ChatAPIRequest)
    (job : TitleJob) (hread : env.failLoadHistory = false) (hrows : env.historyRows = none)
    (hjob : (Handler.ChatStream env db body).titleJob = some job) :
    ∃ req, body = some req ∧
      (∃ creq, (creq, none) ∈ (Handler.ChatStream env db body).chatCalls) ∧
      (Handler.savedDB env db req).GetMessages false none env.storedTime
          (Handler.resolvedID env req) = some [Handler.userMessage env req] ∧
      job = { model := req.model, message := req.message,
              conversationID := Handler.resolvedID env req } := by
  have hend := ChatStream_end env db body
  generalize Handler.ChatStream env db body = out at hend hjob
  cases hend with
  | badBody => simp at hjob
  | invalid req h => simp at hjob
  | noConversation req hmsg hmod => simp at hjob
  | notSaved req hmsg hmod hfail => simp at hjob
  | noFlusher req hmsg hmod hsaved hfl => simp at hjob
  | failed req hmsg hmod hsaved hfl e => simp at hjob
  | completed req hmsg hmod hsaved hfl =>
    refine ⟨req, rfl, ⟨_, List.mem_singleton.mpr rfl⟩, ?_⟩
    have hloaded : Handler.loaded env db req =
        some (((Handler.savedDB env db req).messages.filter
          (fun m => m.conversationID == Handler.resolvedID env req)).insertionSort
          (fun a b => bytesLE (env.storedTime a.createdAt) (env.storedTime b.createdAt) = true)) := by
      simp [Handler.loaded, DB.GetMessages, hread, hrows]
    have hget : (Handler.savedDB env db req).GetMessages false none env.storedTime
        (Handler.resolvedID env req) = Handler.loaded env db req := by
      simp [Handler.loaded, hread, hrows]
    by_cases hlen : ((Handler.loaded env db req).getD []).length ≤ 1
    · simp only [hlen, if_true, Option.some.injEq] at hjob
      refine ⟨?_, hjob.symm⟩
      rw [hget, hloaded]
      rw [hloaded] at hlen
      simp only [Option.getD_some, List.length_insertionSort] at hlen
      have hmem : Handler.userMessage env req ∈
          ((Handler.savedDB env db req).messages.filter
            (fun m => m.conversationID == Handler.resolvedID env req)) := by
        rw [savedDB_messages env db req hsaved]
        simp [Handler.userMessage]
      have hmem' : Handler.userMessage env req ∈
          (((Handler.savedDB env db req).messages.filter
            (fun m => m.conversationID == Handler.resolvedID env req)).insertionSort
            (fun a b => bytesLE (env.storedTime a.createdAt) (env.storedTime b.createdAt) = true)) :=
        (List.perm_insertionSort _ _).mem_iff.mpr hmem
      have hlen' : (((Handler.savedDB env db req).messages.filter
            (fun m => m.conversationID == Handler.resolvedID env req)).insertionSort
            (fun a b => bytesLE (env.storedTime a.createdAt) (env.storedTime b.createdAt) = true)).length ≤ 1 := by
        rw [List.length_insertionSort]; exact hlen
      generalize (((Handler.savedDB env db req).messages.filter
            (fun m => m.conversationID == Handler.resolvedID env req)).insertionSort
            (fun a b => bytesLE (env.storedTime a.createdAt) (env.storedTime b.createdAt) = true)) = l at hmem' hlen'
      match l, hmem', hlen' with
      | [x], hm, _ => simp at hm; rw [hm]
      | _ :: _ :: _, _, hl => simp at hl
    · simp [hlen] at hjob

/-- C9: when the insert of the inbound user message fails, the handler answers with the
structured error reply (status 500), writes no event, does not call the inference client,
hands no assistant message to storage, leaves the stored messages as they were and starts
no title goroutine. -/
theorem user_save_failure_is_fatal (env : Env) (db : DB) (body : Option ChatAPIRequest)
    (m : Message) (hrole : m.role = ascii "user")
    (hfail : DbCall.createMessage m false ∈ (Handler.ChatStream env db body).dbCalls) :
    (Handler.ChatStream env db body).reply = some (500, "Failed to save message") ∧
    (Handler.ChatStream env db body).writer = [] ∧
    (Handler.ChatStream env db body).chatCalls = [] ∧
    (∀ c ∈ (Handler.ChatStream env db body).dbCalls, c.savesAssistant = false) ∧
    (Handler.ChatStream env db body).db.messages = db.messages ∧
    (Handler.ChatStream env db body).titleJob = none := by
  have hroles : (ascii "assistant" == ascii "user") = false := by decide
  have hroles' : (ascii "user" == ascii "assistant") = false := by decide
  have hend := ChatStream_end env db body
  generalize Handler.ChatStream env db body = out at hend hfail
  cases hend with
  | badBody => simp at hfail
  | invalid req h => simp at hfail
  | noConversation req hmsg hmod => simp at hfail
  | notSaved req hmsg hmod hsave =>
    refine ⟨rfl, rfl, rfl, ?_, startDB_messages env db req, rfl⟩
    intro c hc
    simp only [Handler.startCalls, List.mem_append, List.mem_singleton] at hc
    rcases hc with h | h
    · split at h
      · simp only [List.mem_singleton] at h
        subst h; rfl
      · simp at h
    · subst h
      simp [DbCall.savesAssistant, Handler.userMessage, hroles']
  | noFlusher req hmsg hmod hsaved hfl =>
    exact absurd rfl ((streamCalls_plain env db req _ hfail).2.2 m)
  | failed req hmsg hmod hsaved hfl e =>
    exact absurd rfl ((streamCalls_plain env db req _ hfail).2.2 m)
  | completed req hmsg hmod hsaved hfl =>
    simp only [List.mem_append, List.mem_cons, List.mem_singleton, List.not_mem_nil,
      or_false] at hfail
    rcases hfail with h | h | h
    · exact absurd rfl ((streamCalls_plain env db req _ h).2.2 m)
    · injection h with hm _
      rw [hm] at hrole
      simp only [Handler.assistantMessage] at hrole
      rw [hrole] at hroles'
      simp at hroles'
    · cases h

/-- Witness for C9: the sample turn with a failing insert of the inbound message. -/
theorem user_save_failure_is_fatal_witness :
    (Handler.userMessage writeFaultEnv sampleRequest).role = ascii "user" ∧
    DbCall.createMessage (Handler.userMessage writeFaultEnv sampleRequest) false ∈
      (Handler.ChatStream writeFaultEnv emptyDB (some sampleRequest)).dbCalls ∧
    ((Handler.ChatStream writeFaultEnv emptyDB (some sampleRequest)).reply =
        some (500, "Failed to save message") ∧
     (Handler.ChatStream writeFaultEnv emptyDB (some sampleRequest)).writer = [] ∧
     (Handler.ChatStream writeFaultEnv emptyDB (some sampleRequest)).chatCalls = [] ∧
     (∀ c ∈ (Handler.ChatStream writeFaultEnv emptyDB (some sampleRequest)).dbCalls,
        c.savesAssistant = false) ∧
     (Handler.ChatStream writeFaultEnv emptyDB (some sampleRequest)).db.messages =
        emptyDB.messages ∧
     (Handler.ChatStream writeFaultEnv emptyDB (some sampleRequest)).titleJob = none) :=
  ⟨by decide, by decide,
   user_save_failure_is_fatal writeFaultEnv emptyDB (some sampleRequest)
     (Handler.userMessage writeFaultEnv sampleRequest) (by decide) (by decide)⟩

/-- C10 at its failing input: the read of the history fails, yet the handler writes no
error reply and no `error` event, calls the inference client with an empty message list,
relays its chunks and stores the assistant message. -/
theorem history_read_failure_dropped :
    DbCall.getMessages (ascii "c-new") false ∈
      (Handler.ChatStream readFaultEnv emptyDB (some sampleRequest)).dbCalls ∧
    (Handler.ChatStream readFaultEnv emptyDB (some sampleRequest)).reply = none ∧
    (Handler.ChatStream readFaultEnv emptyDB (some sampleRequest)).chatCalls =
      [({ model := ascii "m1", messages := [], stream := false, options := none }, none)] ∧
    (Handler.ChatStream readFaultEnv emptyDB (some sampleRequest)).writer.events =
      [Event.init (ascii "c-new"),
       Event.chunk { content := ascii "He", done := false, totalTokens := none,
                     evalCount := none, duration := none },
       Event.chunk { content := ascii "y!", done := true, totalTokens := some 12,
                     evalCount := some 5, duration := some ⟨2000000000⟩ }] ∧
    (Handler.ChatStream readFaultEnv emptyDB (some sampleRequest)).db.messages.map
      (fun m => (m.role, m.content)) =
      [(ascii "user", ascii "hello"), (ascii "assistant", ascii "Hey!")] := by
  decide

/-! ## Failed writes to the client -/

theorem eraseDelivery_fields (st1 st2 : TurnState)
    (h : st1.eraseDelivery = st2.eraseDelivery) :
    st1.writer.map Written.eraseDelivery = st2.writer.map Written.eraseDelivery ∧
    st1.fullResponse = st2.fullResponse ∧ st1.totalTokens = st2.totalTokens ∧
    st1.totalDuration = st2.totalDuration :=
  ⟨(congrArg TurnState.writer h :),
   (congrArg TurnState.fullResponse h :),
   (congrArg TurnState.totalTokens h :),
   (congrArg TurnState.totalDuration h :)⟩

theorem onChunk_eraseDelivery (env1 env2 : Env) (st1 st2 : TurnState) (c : ChatResponse)
    (h : st1.eraseDelivery = st2.eraseDelivery) :
    (onChunk env1 st1 c).1.eraseDelivery = (onChunk env2 st2 c).1.eraseDelivery := by
  obtain ⟨hw, hf, ht, hd⟩ := eraseDelivery_fields st1 st2 h
  simp only [onChunk, fprintf, TurnState.eraseDelivery, List.map_append, List.map_cons,
    List.map_nil, Written.eraseDelivery, hw, hf, ht, hd]

theorem feed_eraseDelivery (env1 env2 : Env) (cs : List ChatResponse) (st1 st2 : TurnState)
    (h : st1.eraseDelivery = st2.eraseDelivery) :
    (feed (onChunk env1) st1 cs).eraseDelivery = (feed (onChunk env2) st2 cs).eraseDelivery := by
  induction cs generalizing st1 st2 with
  | nil => simpa [feed] using h
  | cons c cs ih =>
    simp only [feed, List.foldl_cons]
    exact ih _ _ (onChunk_eraseDelivery env1 env2 st1 st2 c h)

theorem scanLoop_error_indep {σ τ : Type} (um : GoString → Option ChatResponse)
    (f : σ → ChatResponse → σ × Option GoString) (g : τ → ChatResponse → τ × Option GoString)
    (hf : ∀ s c, (f s c).2 = none) (hg : ∀ t c, (g t c).2 = none)
    (toks : List ScanToken) (fin : Option GoString) (s : σ) (t : τ) :
    (Client.scanLoop um f toks fin s).2 = (Client.scanLoop um g toks fin t).2 := by
  induction toks generalizing s t with
  | nil => simp [Client.scanLoop]
  | cons tok rest ih =>
    unfold Client.scanLoop
    by_cases h0 : tok.line.length = 0
    · simp only [h0, if_true]
      exact ih s t
    · simp only [h0, if_false]
      cases hd : um tok.line with
      | none => exact ih s t
      | some c =>
        simp only []
        have h1 := hf s c
        have h2 := hg t c
        rcases hfc : f s c with ⟨s', e1⟩
        rcases hgc : g t c with ⟨t', e2⟩
        rw [hfc] at h1
        rw [hgc] at h2
        simp only at h1 h2
        subst h1 h2
        by_cases hdone : c.done = true
        · simp [hdone]
        · simp only [hdone]
          simp only [Bool.false_eq_true, if_false]
          exact ih s' t'

theorem ChatStream_error_indep {σ τ : Type} (upstream : ChatRequest → StreamReply)
    (um : GoString → Option ChatResponse) (req : ChatRequest)
    (f : σ → ChatResponse → σ × Option GoString) (g : τ → ChatResponse → τ × Option GoString)
    (hf : ∀ s c, (f s c).2 = none) (hg : ∀ t c, (g t c).2 = none) (s : σ) (t : τ) :
    (Client.ChatStream upstream um req f s).2 = (Client.ChatStream upstream um req g t).2 := by
  unfold Client.ChatStream
  cases upstream { req with stream := true } with
  | failed msg => rfl
  | response status body toks fin =>
    by_cases hs : status = 200
    · simp only [hs, ne_eq, not_true_eq_false, if_false]
      exact scanLoop_error_indep um f g hf hg toks fin s t
    · simp [hs]

theorem stream_failed (env : Env) (db : DB) (calls : List DbCall) (req : ChatAPIRequest)
    (cid : GoString) (history : List Message) (hfl : env.flusher = true) (e : ClientError)
    (herr : (Client.ChatStream env.upstream env.unmarshal (Handler.chatRequest req history)
      (onChunk env) (Handler.initialState env cid)).2 = some e) :
    Handler.stream env db calls req cid history =
      { db := db, reply := none,
        writer := (fprintf env (Handler.finalState env req cid history).writer
          (Event.error e)).1,
        chatCalls := [(Handler.chatRequest req history, some e)],
        dbCalls := calls, titleJob := none } := by
  rcases stream_outcome env db calls req cid history hfl with ⟨e', h⟩ | h
  · have hcall := congrArg Outcome.chatCalls h
    rw [h]
    have hlog : (Handler.stream env db calls req cid history).chatCalls =
        [(Handler.chatRequest req history,
          (Client.ChatStream env.upstream env.unmarshal (Handler.chatRequest req history)
            (onChunk env) (Handler.initialState env cid)).2)] := by
      unfold Handler.stream
      simp only [hfl, Bool.not_true, Bool.false_eq_true, if_false]
      split <;> rename_i hres <;>
        · have hres' := congrArg Prod.snd hres
          simp only at hres'
          simp [Handler.chatRequest, Handler.initialState, ← hres']
    rw [hlog, herr] at hcall
    simp only [List.cons.injEq, Prod.mk.injEq, Option.some.injEq, true_and, and_true] at hcall
    subst hcall
    rfl
  · have hcall := congrArg Outcome.chatCalls h
    have hlog : (Handler.stream env db calls req cid history).chatCalls =
        [(Handler.chatRequest req history,
          (Client.ChatStream env.upstream env.unmarshal (Handler.chatRequest req history)
            (onChunk env) (Handler.initialState env cid)).2)] := by
      unfold Handler.stream
      simp only [hfl, Bool.not_true, Bool.false_eq_true, if_false]
      split <;> rename_i hres <;>
        · have hres' := congrArg Prod.snd hres
          simp only at hres'
          simp [Handler.chatRequest, Handler.initialState, ← hres']
    rw [hlog, herr] at hcall
    simp at hcall

theorem stream_chatCalls (env : Env) (db : DB) (calls : List DbCall) (req : ChatAPIRequest)
    (cid : GoString) (history : List Message) (hfl : env.flusher = true) :
    (Handler.stream env db calls req cid history).chatCalls =
      [(Handler.chatRequest req history,
        (Client.ChatStream env.upstream env.unmarshal (Handler.chatRequest req history)
          (onChunk env) (Handler.initialState env cid)).2)] := by
  unfold Handler.stream
  simp only [hfl, Bool.not_true, Bool.false_eq_true, if_false]
  split <;> rename_i hres <;>
    · have hres' := congrArg Prod.snd hres
      simp only at hres'
      simp [Handler.chatRequest, Handler.initialState, ← hres']

theorem stream_completed (env : Env) (db : DB) (calls : List DbCall) (req : ChatAPIRequest)
    (cid : GoString) (history : List Message) (hfl : env.flusher = true)
    (herr : (Client.ChatStream env.upstream env.unmarshal (Handler.chatRequest req history)
      (onChunk env) (Handler.initialState env cid)).2 = none) :
    Handler.stream env db calls req cid history =
      { db := ((db.CreateMessage env.failSaveAssistant
            (Handler.assistantMessage env req cid
              (Handler.finalState env req cid history))).1.TouchConversation
            env.failTouch env.nowTouch cid).1,
        reply := none,
        writer := (Handler.finalState env req cid history).writer,
        chatCalls := [(Handler.chatRequest req history, none)],
        dbCalls := calls ++
          [DbCall.createMessage
            (Handler.assistantMessage env req cid (Handler.finalState env req cid history))
            (db.CreateMessage env.failSaveAssistant
              (Handler.assistantMessage env req cid
                (Handler.finalState env req cid history))).2,
           DbCall.touchConversation cid
            ((db.CreateMessage env.failSaveAssistant
              (Handler.assistantMessage env req cid
                (Handler.finalState env req cid history))).1.TouchConversation
              env.failTouch env.nowTouch cid).2],
        titleJob := if history.length ≤ 1 then
            some { model := req.model, message := req.message, conversationID := cid }
          else none } := by
  rcases stream_outcome env db calls req cid history hfl with ⟨e', h⟩ | h
  · have hcall := congrArg Outcome.chatCalls h
    rw [stream_chatCalls env db calls req cid history hfl, herr] at hcall
    simp at hcall
  · exact h

theorem initialState_eraseDelivery (env1 env2 : Env) (cid : GoString) :
    (Handler.initialState env1 cid).eraseDelivery =
      (Handler.initialState env2 cid).eraseDelivery := by
  simp [Handler.initialState, fprintf, TurnState.eraseDelivery, Written.eraseDelivery]

theorem finalState_eraseDelivery (env : Env) (wf : Nat → Bool) (req : ChatAPIRequest)
    (cid : GoString) (history : List Message) :
    (Handler.finalState { env with writeFails := wf } req cid history).eraseDelivery =
      (Handler.finalState env req cid history).eraseDelivery := by
  unfold Handler.finalState
  exact feed_eraseDelivery _ _ _ _ _ (initialState_eraseDelivery _ _ cid)

theorem stream_eraseDelivery (env : Env) (wf : Nat → Bool) (db : DB) (calls : List DbCall)
    (req : ChatAPIRequest) (cid : GoString) (history : List Message) :
    (Handler.stream { env with writeFails := wf } db calls req cid history).eraseDelivery =
      (Handler.stream env db calls req cid history).eraseDelivery := by
  rcases Bool.eq_false_or_eq_true env.flusher with hfl | hfl
  case inr =>
    rw [stream_no_flusher env db calls req cid history hfl,
      stream_no_flusher { env with writeFails := wf } db calls req cid history hfl]
  case inl =>
    have hfl' : ({ env with writeFails := wf } : Env).flusher = true := hfl
    have hindep := ChatStream_error_indep env.upstream env.unmarshal
      (Handler.chatRequest req history) (onChunk { env with writeFails := wf }) (onChunk env)
      (onChunk_snd _) (onChunk_snd env)
      (Handler.initialState { env with writeFails := wf } cid) (Handler.initialState env cid)
    obtain ⟨hw, hf, ht, hd⟩ := eraseDelivery_fields _ _
      (finalState_eraseDelivery env wf req cid history)
    cases herr : (Client.ChatStream env.upstream env.unmarshal
        (Handler.chatRequest req history) (onChunk env) (Handler.initialState env cid)).2 with
    | some e =>
      rw [stream_failed env db calls req cid history hfl e herr,
        stream_failed { env with writeFails := wf } db calls req cid history hfl' e
          (hindep.trans herr)]
      simp only [Outcome.eraseDelivery, fprintf, List.map_append, List.map_cons, List.map_nil,
        Written.eraseDelivery, hw]
    | none =>
      rw [stream_completed env db calls req cid history hfl herr,
        stream_completed { env with writeFails := wf } db calls req cid history hfl'
          (hindep.trans herr)]
      have hmsg : Handler.assistantMessage { env with writeFails := wf } req cid
          (Handler.finalState { env with writeFails := wf } req cid history) =
          Handler.assistantMessage env req cid (Handler.finalState env req cid history) := by
        simp only [Handler.assistantMessage, hf, ht, hd]
      simp only [Outcome.eraseDelivery, hmsg, hw]

theorem turn_eraseDelivery (env : Env) (wf : Nat → Bool) (db : DB) (calls : List DbCall)
    (req : ChatAPIRequest) (cid : GoString) :
    (Handler.turn { env with writeFails := wf } db calls req cid).eraseDelivery =
      (Handler.turn env db calls req cid).eraseDelivery := by
  unfold Handler.turn
  simp only []
  split
  · rfl
  · exact stream_eraseDelivery env wf _ _ req cid _

theorem ChatStream_eraseDelivery (env : Env) (wf : Nat → Bool) (db : DB)
    (body : Option ChatAPIRequest) :
    (Handler.ChatStream { env with writeFails := wf } db body).eraseDelivery =
      (Handler.ChatStream env db body).eraseDelivery := by
  unfold Handler.ChatStream
  cases body with
  | none => rfl
  | some req =>
    simp only []
    split
    · rfl
    · split
      · split
        · rfl
        · exact turn_eraseDelivery env wf _ _ req _
      · exact turn_eraseDelivery env wf _ _ req _

/-- C11, as stated, fails: the client disconnects after the `init` event, so the write of
every `chunk` event fails; the callback still returns nil, the client goes on to consume the
line after the failed write, returns without error, and the assistant message is stored. -/
theorem write_failure_counterexample :
    (Handler.ChatStream disconnectedEnv emptyDB (some sampleRequest)).writer.map
      (fun x => x.delivered) = [true, false, false] ∧
    (Handler.ChatStream disconnectedEnv emptyDB (some sampleRequest)).writer.chunks.map
      (fun c => c.content) = [ascii "He", ascii "y!"] ∧
    (Handler.ChatStream disconnectedEnv emptyDB (some sampleRequest)).chatCalls.map
      (fun c => c.2) = [none] ∧
    (Handler.ChatStream disconnectedEnv emptyDB (some sampleRequest)).db.assistantMessages.map
      (fun m => m.content) = [ascii "Hey!"] := by
  decide

/-- C11 (amended): a failed write to the client is ignored by the relay: the chunk callback
returns nil whether or not its write failed, and apart from the delivery of the written
events the turn is the same as the turn in which no write fails (same events written, same
inference call and result, same storage calls, same database, same reply, same title
goroutine); in particular the assistant message is stored whenever the client returns
without error. -/
theorem write_failures_ignored (env : Env) (db : DB) (body : Option ChatAPIRequest) :
    (∀ st c, (onChunk env st c).2 = none) ∧
    (Handler.ChatStream env db body).eraseDelivery =
      (Handler.ChatStream { env with writeFails := fun _ => false } db body).eraseDelivery :=
  ⟨onChunk_snd env, (ChatStream_eraseDelivery env (fun _ => false) db body).symm⟩

/-- C12, as stated, fails: on conversation `c1` (last updated at 3) the inbound user message
is stored with creation time 11, the inference call then fails, and `updated_at` of `c1` is
still 3; `CreateMessage` itself never changes the conversations table. -/
theorem updated_at_stale_counterexample :
    DbCall.createMessage (Handler.userMessage (sampleEnv brokenBody) followUpRequest) true ∈
      (Handler.ChatStream (sampleEnv brokenBody) busyDB (some followUpRequest)).dbCalls ∧
    (Handler.ChatStream (sampleEnv brokenBody) busyDB (some followUpRequest)).db.messages.map
      (fun m => (m.conversationID, m.role, m.createdAt)) =
      [(ascii "c1", ascii "user", 2), (ascii "c1", ascii "assistant", 3),
       (ascii "c1", ascii "user", 11)] ∧
    (Handler.ChatStream (sampleEnv brokenBody) busyDB (some followUpRequest)).db.conversations.map
      (fun c => (c.id, c.updatedAt)) = [(ascii "c1", 3)] ∧
    (busyDB.CreateMessage false
      (Handler.userMessage (sampleEnv brokenBody) followUpRequest)).2 = true ∧
    (busyDB.CreateMessage false
      (Handler.userMessage (sampleEnv brokenBody) followUpRequest)).1.conversations =
      busyDB.conversations := by
  decide

theorem TouchConversation_updatedAt (d : DB) (now : Nat) (id : GoString) (c : Conversation)
    (hc : c ∈ (d.TouchConversation false now id).1.conversations) (hid : c.id = id) :
    c.updatedAt = now := by
  simp only [DB.TouchConversation, Bool.false_eq_true, if_false, List.mem_map] at hc
  obtain ⟨c0, -, hc0⟩ := hc
  by_cases h0 : (c0.id == id) = true
  · rw [if_pos h0] at hc0
    rw [← hc0]
  · rw [if_neg h0] at hc0
    subst hc0
    exact absurd (by simpa using hid) h0

theorem UpdateConversationTitle_updatedAt (d : DB) (now : Nat) (id title : GoString)
    (c : Conversation) (hc : c ∈ (d.UpdateConversationTitle false now id title).1.conversations)
    (hid : c.id = id) : c.updatedAt = now ∧ c.title = title := by
  simp only [DB.UpdateConversationTitle, Bool.false_eq_true, if_false, List.mem_map] at hc
  obtain ⟨c0, -, hc0⟩ := hc
  by_cases h0 : (c0.id == id) = true
  · rw [if_pos h0] at hc0
    rw [← hc0]
    exact ⟨rfl, rfl⟩
  · rw [if_neg h0] at hc0
    subst hc0
    exact absurd (by simpa using hid) h0

/-- C12 (amended): `UpdateConversationTitle` and `TouchConversation`, when they succeed, set
`updated_at` of the conversation to the time of the operation, while `CreateMessage` leaves
the conversations table unchanged; a turn whose inference call returns without error touches
the conversation after the assistant message, so after such a turn (the touch succeeding and
the clock not running backwards) `updated_at` is the time of the touch and at least the user
message's creation time. -/
theorem updated_at_refreshed_by_touch (env : Env) (db : DB) (body : Option ChatAPIRequest)
    (creq : ChatRequest)
    (hdone : (creq, none) ∈ (Handler.ChatStream env db body).chatCalls)
    (htouch : env.failTouch = false) (hclock : env.nowUser ≤ env.nowTouch) :
    (∃ req, body = some req ∧
      DbCall.touchConversation (Handler.resolvedID env req) true ∈
        (Handler.ChatStream env db body).dbCalls ∧
      ∀ c ∈ (Handler.ChatStream env db body).db.conversations,
        c.id = Handler.resolvedID env req →
          c.updatedAt = env.nowTouch ∧ (Handler.userMessage env req).createdAt ≤ c.updatedAt) ∧
    (∀ (d : DB) (now : Nat) (id title : GoString),
      ∀ c ∈ (d.UpdateConversationTitle false now id title).1.conversations, c.id = id →
        c.updatedAt = now ∧ c.title = title) ∧
    (∀ (d : DB) (now : Nat) (id : GoString),
      ∀ c ∈ (d.TouchConversation false now id).1.conversations, c.id = id →
        c.updatedAt = now) ∧
    (∀ (d : DB) (fault : Bool) (msg : Message),
      (d.CreateMessage fault msg).1.conversations = d.conversations) := by
  refine ⟨?_, fun d now id title c hc hid => UpdateConversationTitle_updatedAt d now id title c hc hid,
    fun d now id c hc hid => TouchConversation_updatedAt d now id c hc hid,
    CreateMessage_conversations⟩
  have hend := ChatStream_end env db body
  generalize Handler.ChatStream env db body = out at hend hdone
  cases hend with
  | badBody => simp at hdone
  | invalid req h => simp at hdone
  | noConversation req hmsg hmod => simp at hdone
  | notSaved req hmsg hmod hfail => simp at hdone
  | noFlusher req hmsg hmod hsaved hfl => simp at hdone
  | failed req hmsg hmod hsaved hfl e => simp at hdone
  | completed req hmsg hmod hsaved hfl =>
    refine ⟨req, rfl, ?_, ?_⟩
    · simp only [htouch, List.mem_append, List.mem_cons, List.mem_singleton]
      right; right; left
      simp [DB.TouchConversation]
    · intro c hc hid
      simp only [htouch] at hc
      have hu := TouchConversation_updatedAt _ _ _ c hc hid
      exact ⟨hu, by rw [hu]; exact hclock⟩

/-- Witness for C12 (amended): the second turn on conversation `c1`, completed. -/
theorem updated_at_refreshed_by_touch_witness :
    (Handler.chatRequest followUpRequest
        ((busyDB.messages ++ [Handler.userMessage (sampleEnv sampleBody) followUpRequest])),
      none) ∈ (Handler.ChatStream (sampleEnv sampleBody) busyDB (some followUpRequest)).chatCalls ∧
    (sampleEnv sampleBody).failTouch = false ∧
    (sampleEnv sampleBody).nowUser ≤ (sampleEnv sampleBody).nowTouch ∧
    ((∃ req, some followUpRequest = some req ∧
      DbCall.touchConversation (Handler.resolvedID (sampleEnv sampleBody) req) true ∈
        (Handler.ChatStream (sampleEnv sampleBody) busyDB (some followUpRequest)).dbCalls ∧
      ∀ c ∈ (Handler.ChatStream (sampleEnv sampleBody) busyDB
          (some followUpRequest)).db.conversations,
        c.id = Handler.resolvedID (sampleEnv sampleBody) req →
          c.updatedAt = (sampleEnv sampleBody).nowTouch ∧
          (Handler.userMessage (sampleEnv sampleBody) req).createdAt ≤ c.updatedAt) ∧
    (∀ (d : DB) (now : Nat) (id title : GoString),
      ∀ c ∈ (d.UpdateConversationTitle false now id title).1.conversations, c.id = id →
        c.updatedAt = now ∧ c.title = title) ∧
    (∀ (d : DB) (now : Nat) (id : GoString),
      ∀ c ∈ (d.TouchConversation false now id).1.conversations, c.id = id →
        c.updatedAt = now) ∧
    (∀ (d : DB) (fault : Bool) (msg : Message),
      (d.CreateMessage fault msg).1.conversations = d.conversations)) :=
  ⟨by decide, rfl, by decide,
   updated_at_refreshed_by_touch (sampleEnv sampleBody) busyDB (some followUpRequest)
     (Handler.chatRequest followUpRequest
        ((busyDB.messages ++ [Handler.userMessage (sampleEnv sampleBody) followUpRequest])))
     (by decide) rfl (by decide)⟩

/-! ## The `init` event and the conversation of a turn -/

theorem noConversation_of_create_failed (env : Env) (db : DB) (req : ChatAPIRequest)
    (hid : req.conversationID = [])
    (hfail : (db.CreateConversation env.failCreateConversation env.nowConv env.convID
      (ascii "New Chat") req.model).2 = false) :
    (Handler.ChatStream env db (some req)).writer = [] := by
  unfold Handler.ChatStream
  simp only [hid, if_true, hfail, Bool.not_false]
  split <;> rfl

theorem startDB_created (env : Env) (db : DB) (req : ChatAPIRequest)
    (hid : req.conversationID = [])
    (hok : (db.CreateConversation env.failCreateConversation env.nowConv env.convID
      (ascii "New Chat") req.model).2 = true) :
    ∃ c ∈ (Handler.startDB env db req).conversations,
      c.id = env.convID ∧ c.title = ascii "New Chat" ∧ c.model = req.model := by
  unfold Handler.startDB
  simp only [hid, if_true]
  unfold DB.CreateConversation at hok ⊢
  split
  · rename_i hc; simp [hc] at hok
  · exact ⟨_, List.mem_append_right _ (List.mem_singleton.mpr rfl), rfl, rfl, rfl⟩

theorem savedDB_conversations (env : Env) (db : DB) (req : ChatAPIRequest) :
    (Handler.savedDB env db req).conversations = (Handler.startDB env db req).conversations := by
  unfold Handler.savedDB
  exact CreateMessage_conversations _ _ _

theorem TouchConversation_keeps (d : DB) (fault : Bool) (now : Nat) (id : GoString)
    (c : Conversation) (hc : c ∈ d.conversations) :
    ∃ c' ∈ (d.TouchConversation fault now id).1.conversations,
      c'.id = c.id ∧ c'.title = c.title ∧ c'.model = c.model := by
  unfold DB.TouchConversation
  split
  · exact ⟨c, hc, rfl, rfl, rfl⟩
  · by_cases h0 : (c.id == id) = true
    · refine ⟨{ c with updatedAt := now }, ?_, rfl, rfl, rfl⟩
      simp only [List.mem_map]
      exact ⟨c, hc, by rw [if_pos h0]⟩
    · refine ⟨c, ?_, rfl, rfl, rfl⟩
      simp only [List.mem_map]
      exact ⟨c, hc, by rw [if_neg h0]⟩

theorem streamCalls_conversation (env : Env) (db : DB) (req : ChatAPIRequest) (m : Message)
    (ok : Bool) (hc : DbCall.createMessage m ok ∈ Handler.streamCalls env db req) :
    m = Handler.userMessage env req ∧ ok = true := by
  unfold Handler.streamCalls Handler.startCalls at hc
  split at hc
  · simp only [List.cons_append, List.nil_append, List.mem_cons, List.mem_singleton,
      List.not_mem_nil, or_false] at hc
    rcases hc with h | h | h
    · cases h
    · injection h with h1 h2; exact ⟨h1, h2⟩
    · cases h
  · simp only [List.nil_append, List.mem_cons, List.mem_singleton,
      List.not_mem_nil, or_false] at hc
    rcases hc with h | h
    · injection h with h1 h2; exact ⟨h1, h2⟩
    · cases h

theorem userMessage_in_streamCalls (env : Env) (db : DB) (req : ChatAPIRequest) :
    DbCall.createMessage (Handler.userMessage env req) true ∈ Handler.streamCalls env db req := by
  unfold Handler.streamCalls
  exact List.mem_append_right _ (List.mem_cons_self _ _)

theorem createConversation_in_streamCalls (env : Env) (db : DB) (req : ChatAPIRequest)
    (hid : req.conversationID = []) :
    DbCall.createConversation env.convID (ascii "New Chat") req.model true ∈
      Handler.streamCalls env db req := by
  unfold Handler.streamCalls Handler.startCalls
  simp [hid]

/-- C13: when a turn opens the stream, the first event written is the `init` event and no
later event is an `init` event; its conversation id is the id of the request when that is
non-empty, and otherwise the id of the conversation the handler just created with title
`New Chat` and the requested model; every message handed to storage in the turn carries
that id, the stored user message among them. -/
theorem init_event_first (env : Env) (db : DB) (body : Option ChatAPIRequest)
    (hopen : (Handler.ChatStream env db body).writer ≠ []) :
    ∃ req, body = some req ∧
      (∃ rest, (Handler.ChatStream env db body).writer.events =
          Event.init (Handler.resolvedID env req) :: rest ∧ ∀ x ∈ rest, x.isInit = false) ∧
      (req.conversationID ≠ [] → Handler.resolvedID env req = req.conversationID) ∧
      (req.conversationID = [] →
        Handler.resolvedID env req = env.convID ∧
        DbCall.createConversation env.convID (ascii "New Chat") req.model true ∈
          (Handler.ChatStream env db body).dbCalls ∧
        ∃ c ∈ (Handler.ChatStream env db body).db.conversations,
          c.id = env.convID ∧ c.title = ascii "New Chat" ∧ c.model = req.model) ∧
      (∀ m ok, DbCall.createMessage m ok ∈ (Handler.ChatStream env db body).dbCalls →
        m.conversationID = Handler.resolvedID env req) ∧
      (∃ m, DbCall.createMessage m true ∈ (Handler.ChatStream env db body).dbCalls ∧
        m.role = ascii "user" ∧ m.content = req.message ∧
        m ∈ (Handler.ChatStream env db body).db.messages) := by
  have hcreated : ∀ req, body = some req → req.conversationID = [] →
      (db.CreateConversation env.failCreateConversation env.nowConv env.convID
        (ascii "New Chat") req.model).2 = true := by
    intro req hb hid
    cases hok : (db.CreateConversation env.failCreateConversation env.nowConv env.convID
        (ascii "New Chat") req.model).2 with
    | true => rfl
    | false =>
      subst hb
      exact absurd (noConversation_of_create_failed env db req hid hok) hopen
  have hend := ChatStream_end env db body
  generalize Handler.ChatStream env db body = out at hend hopen
  cases hend with
  | badBody => simp at hopen
  | invalid req h => simp at hopen
  | noConversation req hmsg hmod => simp at hopen
  | notSaved req hmsg hmod hfail => simp at hopen
  | noFlusher req hmsg hmod hsaved hfl => simp at hopen
  | failed req hmsg hmod hsaved hfl e =>
    refine ⟨req, rfl, ⟨(streamChunks env.upstream env.unmarshal
        (Handler.chatRequest req ((Handler.loaded env db req).getD []))).map
          (fun c => Event.chunk (chunkOf c)) ++ [Event.error e], ?_, ?_⟩, ?_, ?_, ?_, ?_⟩
    · rw [fprintf_events, finalState_events]
      rfl
    · intro x hx
      simp only [List.mem_append, List.mem_map, List.mem_singleton] at hx
      rcases hx with ⟨c, -, h⟩ | h <;> subst h <;> rfl
    · intro hne; simp [Handler.resolvedID, hne]
    · intro hid
      refine ⟨by simp [Handler.resolvedID, hid],
        createConversation_in_streamCalls env db req hid, ?_⟩
      obtain ⟨c, hc, h1, h2, h3⟩ := startDB_created env db req hid (hcreated req rfl hid)
      exact ⟨c, by rw [savedDB_conversations]; exact hc, h1, h2, h3⟩
    · intro m ok hm
      rw [(streamCalls_conversation env db req m ok hm).1]
      rfl
    · refine ⟨Handler.userMessage env req, userMessage_in_streamCalls env db req, rfl, rfl, ?_⟩
      rw [savedDB_messages env db req hsaved]
      exact List.mem_append_right _ (List.mem_singleton.mpr rfl)
  | completed req hmsg hmod hsaved hfl =>
    refine ⟨req, rfl, ⟨_, finalState_events env req _ _, ?_⟩, ?_, ?_, ?_, ?_⟩
    · intro x hx
      simp only [List.mem_map] at hx
      obtain ⟨c, -, h⟩ := hx
      subst h; rfl
    · intro hne; simp [Handler.resolvedID, hne]
    · intro hid
      refine ⟨by simp [Handler.resolvedID, hid],
        List.mem_append_left _ (createConversation_in_streamCalls env db req hid), ?_⟩
      obtain ⟨c, hc, h1, h2, h3⟩ := startDB_created env db req hid (hcreated req rfl hid)
      have hc' : c ∈ ((Handler.savedDB env db req).CreateMessage env.failSaveAssistant
          (Handler.assistantMessage env req (Handler.resolvedID env req)
            (Handler.finalState env req (Handler.resolvedID env req)
              ((Handler.loaded env db req).getD [])))).1.conversations := by
        rw [CreateMessage_conversations, savedDB_conversations]; exact hc
      obtain ⟨c', hc'', g1, g2, g3⟩ := TouchConversation_keeps _ env.failTouch env.nowTouch
        (Handler.resolvedID env req) c hc'
      exact ⟨c', hc'', g1.trans h1, g2.trans h2, g3.trans h3⟩
    · intro m ok hm
      simp only [List.mem_append, List.mem_cons, List.mem_singleton, List.not_mem_nil,
        or_false] at hm
      rcases hm with h | h | h
      · rw [(streamCalls_conversation env db req m ok h).1]
        rfl
      · injection h with h1 _
        rw [h1]; rfl
      · cases h
    · refine ⟨Handler.userMessage env req,
        List.mem_append_left _ (userMessage_in_streamCalls env db req), rfl, rfl, ?_⟩
      rw [TouchConversation_messages, CreateMessage_messages]
      have hmem : Handler.userMessage env req ∈ (Handler.savedDB env db req).messages := by
        rw [savedDB_messages env db req hsaved]
        exact List.mem_append_right _ (List.mem_singleton.mpr rfl)
      split
      · exact List.mem_append_left _ hmem
      · exact hmem

/-- Witness for C13: the first sample turn, which creates its conversation. -/
theorem init_event_first_witness :
    (Handler.ChatStream (sampleEnv sampleBody) emptyDB (some sampleRequest)).writer ≠ [] ∧
    ∃ req, some sampleRequest = some req ∧
      (∃ rest, (Handler.ChatStream (sampleEnv sampleBody) emptyDB
            (some sampleRequest)).writer.events =
          Event.init (Handler.resolvedID (sampleEnv sampleBody) req) :: rest ∧
          ∀ x ∈ rest, x.isInit = false) ∧
      (req.conversationID ≠ [] →
        Handler.resolvedID (sampleEnv sampleBody) req = req.conversationID) ∧
      (req.conversationID = [] →
        Handler.resolvedID (sampleEnv sampleBody) req = (sampleEnv sampleBody).convID ∧
        DbCall.createConversation (sampleEnv sampleBody).convID (ascii "New Chat") req.model
            true ∈
          (Handler.ChatStream (sampleEnv sampleBody) emptyDB (some sampleRequest)).dbCalls ∧
        ∃ c ∈ (Handler.ChatStream (sampleEnv sampleBody) emptyDB
            (some sampleRequest)).db.conversations,
          c.id = (sampleEnv sampleBody).convID ∧ c.title = ascii "New Chat" ∧
          c.model = req.model) ∧
      (∀ m ok, DbCall.createMessage m ok ∈
          (Handler.ChatStream (sampleEnv sampleBody) emptyDB (some sampleRequest)).dbCalls →
        m.conversationID = Handler.resolvedID (sampleEnv sampleBody) req) ∧
      (∃ m, DbCall.createMessage m true ∈
          (Handler.ChatStream (sampleEnv sampleBody) emptyDB (some sampleRequest)).dbCalls ∧
        m.role = ascii "user" ∧ m.content = req.message ∧
        m ∈ (Handler.ChatStream (sampleEnv sampleBody) emptyDB (some sampleRequest)).db.messages) :=
  ⟨by decide,
   init_event_first (sampleEnv sampleBody) emptyDB (some sampleRequest) (by decide)⟩

/-! ## Round trip of a first turn -/

/-- C14, as stated, fails in three ways on the conversation `c1` without messages.  When
the insert of the assistant message fails (its error is ignored by the handler), the stream
completes with content `Hey!` and the fetch returns the user message only.  When the wall
clock is set back during the generation, both messages are stored and the fetch returns the
assistant message first.  When the local wall clock falls back by an hour between the two
messages, the assistant message is stamped at the later instant, yet its stored value sorts
first and the fetch again returns the assistant message first. -/
theorem round_trip_counterexample :
    ((Handler.ChatStream assistantFaultEnv freshDB (some firstTurnRequest)).chatCalls.map
        (fun c => c.2) = [none] ∧
     (Handler.ChatStream assistantFaultEnv freshDB (some firstTurnRequest)).writer.chunkContent =
        ascii "Hey!" ∧
     ((Handler.ChatStream assistantFaultEnv freshDB (some firstTurnRequest)).db.GetMessages false
        none sampleStored (ascii "c1")).map (fun h => h.map (fun m => (m.role, m.content))) =
        some [(ascii "user", ascii "hello")]) ∧
    ((Handler.ChatStream clockStepEnv freshDB (some firstTurnRequest)).chatCalls.map
        (fun c => c.2) = [none] ∧
     ((Handler.ChatStream clockStepEnv freshDB (some firstTurnRequest)).db.GetMessages false
        none sampleStored (ascii "c1")).map
          (fun h => h.map (fun m => (m.role, m.content, m.createdAt))) =
        some [(ascii "assistant", ascii "Hey!", 5), (ascii "user", ascii "hello", 11)]) ∧
    ((Handler.ChatStream fallBackEnv freshDB (some firstTurnRequest)).chatCalls.map
        (fun c => c.2) = [none] ∧
     ((Handler.ChatStream fallBackEnv freshDB (some firstTurnRequest)).db.GetMessages false
        none fallBackStored (ascii "c1")).map
          (fun h => h.map (fun m => (m.role, m.content, m.createdAt))) =
        some [(ascii "assistant", ascii "Hey!", 31), (ascii "user", ascii "hello", 11)]) := by
  decide

/-- C14 (amended): for a conversation without stored messages and a turn on it with message
`m` whose inference call returns without error, whose assistant message insert succeeds and
whose user message has a stored creation time that sorts strictly before that of its
assistant message, a fetch of the messages of the conversation afterwards that reads every
row returns exactly two messages in this order: a `user` message with content `m`, then an
`assistant` message whose content is the concatenation of the streamed chunk contents. -/
theorem round_trip_two_messages (env : Env) (db : DB) (req : ChatAPIRequest)
    (creq : ChatRequest)
    (hfresh : ∀ m ∈ db.messages, m.conversationID ≠ Handler.resolvedID env req)
    (hdone : (creq, none) ∈ (Handler.ChatStream env db (some req)).chatCalls)
    (hstored : ∃ m, DbCall.createMessage m true ∈
        (Handler.ChatStream env db (some req)).dbCalls ∧ m.role = ascii "assistant")
    (hbefore : storedBefore env.storedTime env.nowUser env.nowAsst) :
    ∃ u a, (Handler.ChatStream env db (some req)).db.GetMessages false none env.storedTime
          (Handler.resolvedID env req) = some [u, a] ∧
      u.role = ascii "user" ∧ u.content = req.message ∧
      a.role = ascii "assistant" ∧
      a.content = (Handler.ChatStream env db (some req)).writer.chunkContent := by
  have hroles : (ascii "user" == ascii "assistant") = false := by decide
  have key : ∀ (body : Option ChatAPIRequest) (out : Outcome) (r : ChatAPIRequest),
      body = some r →
      (∀ m ∈ db.messages, m.conversationID ≠ Handler.resolvedID env r) →
      TurnEnd env db body out → (creq, none) ∈ out.chatCalls →
      (∃ m, DbCall.createMessage m true ∈ out.dbCalls ∧ m.role = ascii "assistant") →
      ∃ u a, out.db.GetMessages false none env.storedTime (Handler.resolvedID env r) =
          some [u, a] ∧
        u.role = ascii "user" ∧ u.content = r.message ∧
        a.role = ascii "assistant" ∧ a.content = out.writer.chunkContent := by
    intro body out r hbody hfresh hend hdone hstored
    cases hend with
    | badBody => simp at hdone
    | invalid req h => simp at hdone
    | noConversation req hmsg hmod => simp at hdone
    | notSaved req hmsg hmod hfail => simp at hdone
    | noFlusher req hmsg hmod hsaved hfl => simp at hdone
    | failed req hmsg hmod hsaved hfl e => simp at hdone
    | completed req hmsg hmod hsaved hfl =>
      injection hbody with hreq
      subst hreq
      obtain ⟨m, hm, hrole⟩ := hstored
      simp only [List.mem_append, List.mem_cons, List.mem_singleton, List.not_mem_nil,
        or_false] at hm
      have hok : ((Handler.savedDB env db req).CreateMessage env.failSaveAssistant
          (Handler.assistantMessage env req (Handler.resolvedID env req)
            (Handler.finalState env req (Handler.resolvedID env req)
              ((Handler.loaded env db req).getD [])))).2 = true := by
        rcases hm with h | h | h
        · have hu := (streamCalls_conversation env db req m true h).1
          rw [hu] at hrole
          simp only [Handler.userMessage] at hrole
          rw [hrole] at hroles
          simp at hroles
        · injection h with _ h2
          exact h2.symm
        · cases h
      refine ⟨Handler.userMessage env req,
        Handler.assistantMessage env req (Handler.resolvedID env req)
          (Handler.finalState env req (Handler.resolvedID env req)
            ((Handler.loaded env db req).getD [])), ?_, rfl, rfl, rfl, ?_⟩
      · have hmsgs : (((Handler.savedDB env db req).CreateMessage env.failSaveAssistant
            (Handler.assistantMessage env req (Handler.resolvedID env req)
              (Handler.finalState env req (Handler.resolvedID env req)
                ((Handler.loaded env db req).getD [])))).1.TouchConversation
              env.failTouch env.nowTouch (Handler.resolvedID env req)).1.messages =
            db.messages ++ [Handler.userMessage env req,
              Handler.assistantMessage env req (Handler.resolvedID env req)
                (Handler.finalState env req (Handler.resolvedID env req)
                  ((Handler.loaded env db req).getD []))] := by
          rw [TouchConversation_messages, CreateMessage_messages, hok,
            savedDB_messages env db req hsaved]
          simp
        have hnone : db.messages.filter
            (fun m => m.conversationID == Handler.resolvedID env req) = [] := by
          rw [List.filter_eq_nil_iff]
          intro m hmem
          simpa using hfresh m hmem
        have hle : bytesLE (env.storedTime (Handler.userMessage env req).createdAt)
            (env.storedTime (Handler.assistantMessage env req (Handler.resolvedID env req)
              (Handler.finalState env req (Handler.resolvedID env req)
                ((Handler.loaded env db req).getD []))).createdAt) = true := hbefore.1
        simp only [DB.GetMessages, Bool.false_eq_true, if_false, hmsgs, List.filter_append,
          hnone, List.nil_append, Option.some.injEq]
        have hfilter : List.filter (fun m => m.conversationID == Handler.resolvedID env req)
            [Handler.userMessage env req,
              Handler.assistantMessage env req (Handler.resolvedID env req)
                (Handler.finalState env req (Handler.resolvedID env req)
                  ((Handler.loaded env db req).getD []))] =
            [Handler.userMessage env req,
              Handler.assistantMessage env req (Handler.resolvedID env req)
                (Handler.finalState env req (Handler.resolvedID env req)
                  ((Handler.loaded env db req).getD []))] := by
          simp [List.filter_cons, Handler.userMessage, Handler.assistantMessage]
        rw [hfilter]
        simp [List.insertionSort, List.orderedInsert, hle]
      · exact (completed_chunkContent env req _ _).symm
  exact key (some req) _ req rfl hfresh (ChatStream_end env db (some req)) hdone hstored

/-- Witness for C14 (amended): a first turn on the conversation `c1` without messages. -/
theorem round_trip_two_messages_witness :
    (∀ m ∈ freshDB.messages,
      m.conversationID ≠ Handler.resolvedID (sampleEnv sampleBody) firstTurnRequest) ∧
    (Handler.chatRequest firstTurnRequest
        [Handler.userMessage (sampleEnv sampleBody) firstTurnRequest], none) ∈
      (Handler.ChatStream (sampleEnv sampleBody) freshDB (some firstTurnRequest)).chatCalls ∧
    (∃ m, DbCall.createMessage m true ∈
        (Handler.ChatStream (sampleEnv sampleBody) freshDB (some firstTurnRequest)).dbCalls ∧
      m.role = ascii "assistant") ∧
    storedBefore (sampleEnv sampleBody).storedTime (sampleEnv sampleBody).nowUser
      (sampleEnv sampleBody).nowAsst ∧
    ∃ u a, (Handler.ChatStream (sampleEnv sampleBody) freshDB
          (some firstTurnRequest)).db.GetMessages false none (sampleEnv sampleBody).storedTime
          (Handler.resolvedID (sampleEnv sampleBody) firstTurnRequest) = some [u, a] ∧
      u.role = ascii "user" ∧ u.content = firstTurnRequest.message ∧
      a.role = ascii "assistant" ∧
      a.content =
        (Handler.ChatStream (sampleEnv sampleBody) freshDB
          (some firstTurnRequest)).writer.chunkContent :=
  ⟨by decide, by decide,
   ⟨Handler.assistantMessage (sampleEnv sampleBody) firstTurnRequest (ascii "c1")
      (Handler.finalState (sampleEnv sampleBody) firstTurnRequest (ascii "c1")
        [Handler.userMessage (sampleEnv sampleBody) firstTurnRequest]), by decide, rfl⟩,
   ⟨by decide, by decide⟩,
   round_trip_two_messages (sampleEnv sampleBody) freshDB firstTurnRequest
     (Handler.chatRequest firstTurnRequest
        [Handler.userMessage (sampleEnv sampleBody) firstTurnRequest])
     (by decide) (by decide)
     ⟨Handler.assistantMessage (sampleEnv sampleBody) firstTurnRequest (ascii "c1")
        (Handler.finalState (sampleEnv sampleBody) firstTurnRequest (ascii "c1")
          [Handler.userMessage (sampleEnv sampleBody) firstTurnRequest]), by decide, rfl⟩
     ⟨by decide, by decide⟩⟩

/-! ## The CORS middleware -/

theorem originAllowed_iff (origin : GoString) (origins : List GoString) :
    originAllowed origin origins = true ↔ origin ∈ origins ∨ ascii "*" ∈ origins := by
  induction origins with
  | nil => simp [originAllowed]
  | cons o rest ih =>
    unfold originAllowed
    by_cases h : o = origin ∨ o = ascii "*"
    · simp only [h, if_true, List.mem_cons, true_iff]
      rcases h with h | h
      · exact Or.inl (Or.inl h.symm)
      · exact Or.inr (Or.inl h.symm)
    · simp only [h, if_false, ih, List.mem_cons]
      have h1 : ¬ origin = o := fun e => h (Or.inl e.symm)
      have h2 : ¬ ascii "*" = o := fun e => h (Or.inr e.symm)
      simp [h1, h2]

theorem foldl_append_trim (trimSpace : GoString → GoString) (pieces : List GoString)
    (origins : List GoString) :
    pieces.foldl (fun acc o => acc ++ [trimSpace o]) origins =
      origins ++ pieces.map trimSpace := by
  induction pieces generalizing origins with
  | nil => simp
  | cons x xs ih => simp [List.foldl_cons, ih]

theorem CORSOrigins_eq (lookup : GoString → GoString) (trimSpace : GoString → GoString)
    (c : Config) :
    c.CORSOrigins lookup trimSpace =
      (if c.frontendURL = localhostOrigin then [c.frontendURL]
        else [c.frontendURL, localhostOrigin]) ++
      (if lookup (ascii "CORS_ORIGINS") = [] then []
        else (splitComma (lookup (ascii "CORS_ORIGINS"))).map trimSpace) := by
  unfold Config.CORSOrigins getEnv
  by_cases hf : c.frontendURL = localhostOrigin <;>
    by_cases he : lookup (ascii "CORS_ORIGINS") = [] <;>
    simp [hf, he, foldl_append_trim]

theorem corsHandler_allowOrigin (lookup : GoString → GoString)
    (trimSpace : GoString → GoString) (cfg : Config) (r : CorsRequest) :
    (corsHandler lookup trimSpace cfg r).header allowOriginKey =
      if originAllowed (r.header.get (ascii "Origin")) (cfg.CORSOrigins lookup trimSpace) = true
      then some (r.header.get (ascii "Origin")) else none := by
  have k1 : allowOriginKey ≠ ascii "Access-Control-Allow-Methods" := by decide
  have k2 : allowOriginKey ≠ ascii "Access-Control-Allow-Headers" := by decide
  have k3 : allowOriginKey ≠ ascii "Access-Control-Allow-Credentials" := by decide
  have k4 : allowOriginKey ≠ ascii "Access-Control-Max-Age" := by decide
  unfold corsHandler
  by_cases hm : r.method = ascii "OPTIONS" <;>
    by_cases ha : originAllowed (r.header.get (ascii "Origin"))
        (cfg.CORSOrigins lookup trimSpace) = true <;>
    simp [hm, ha, Header.set, k1, k2, k3, k4]

/-- C15, as stated, fails in its last part: with the default `FRONTEND_URL` and
`CORS_ORIGINS=http://localhost:3000` the list is that origin twice, so it occurs twice, not
once, in the first two positions. -/
theorem cors_origins_counterexample :
    defaultConfig.CORSOrigins (corsLookup localhostOrigin) asciiTrimSpace =
      [localhostOrigin, localhostOrigin] ∧
    ((defaultConfig.CORSOrigins (corsLookup localhostOrigin) asciiTrimSpace).take 2).count
      localhostOrigin = 2 := by
  decide

/-- C15 (amended): the CORS middleware sets `Access-Control-Allow-Origin` if and only if the
request's `Origin` equals an entry of `Config.CORSOrigins()` or that list contains `*`, and
when set its value is exactly the request's `Origin`; the list starts with `FrontendURL`,
and it consists of `FrontendURL`, then `http://localhost:3000` unless `FrontendURL` is that
origin, then the trimmed entries of `CORS_ORIGINS`, so that `http://localhost:3000` occurs
exactly once among the entries that precede those of `CORS_ORIGINS`. -/
theorem cors_allow_origin_iff (lookup : GoString → GoString)
    (trimSpace : GoString → GoString) (cfg : Config) (r : CorsRequest) :
    (((corsHandler lookup trimSpace cfg r).header allowOriginKey).isSome = true ↔
      (r.header.get (ascii "Origin") ∈ cfg.CORSOrigins lookup trimSpace ∨
        ascii "*" ∈ cfg.CORSOrigins lookup trimSpace)) ∧
    (∀ v, (corsHandler lookup trimSpace cfg r).header allowOriginKey = some v →
      v = r.header.get (ascii "Origin")) ∧
    (cfg.CORSOrigins lookup trimSpace).head? = some cfg.frontendURL ∧
    cfg.CORSOrigins lookup trimSpace =
      (if cfg.frontendURL = localhostOrigin then [cfg.frontendURL]
        else [cfg.frontendURL, localhostOrigin]) ++
      (if lookup (ascii "CORS_ORIGINS") = [] then []
        else (splitComma (lookup (ascii "CORS_ORIGINS"))).map trimSpace) ∧
    (if cfg.frontendURL = localhostOrigin then [cfg.frontendURL]
      else [cfg.frontendURL, localhostOrigin]).count localhostOrigin = 1 := by
  refine ⟨?_, ?_, ?_, CORSOrigins_eq lookup trimSpace cfg, ?_⟩
  · rw [corsHandler_allowOrigin, ← originAllowed_iff]
    by_cases ha : originAllowed (r.header.get (ascii "Origin"))
        (cfg.CORSOrigins lookup trimSpace) = true <;> simp [ha]
  · intro v hv
    rw [corsHandler_allowOrigin] at hv
    by_cases ha : originAllowed (r.header.get (ascii "Origin"))
        (cfg.CORSOrigins lookup trimSpace) = true
    · rw [if_pos ha] at hv
      exact (Option.some.inj hv).symm
    · rw [if_neg ha] at hv
      cases hv
  · rw [CORSOrigins_eq]
    by_cases hf : cfg.frontendURL = localhostOrigin <;> simp [hf]
  · by_cases hf : cfg.frontendURL = localhostOrigin
    · simp [hf]
    · have hne : ¬ (localhostOrigin = cfg.frontendURL) := fun e => hf e.symm
      simp [hf, List.count_cons, hne]

end ZeeAI
